import Mathlib

/-!
# Notes API (package `internal/notes`): repository and handlers

A shallow embedding of `internal/notes/repository.go`, `internal/notes/models.go`
and `internal/notes/handlers.go`.

* Go `int` / `int64` values are `Int` (no arithmetic is performed on them by the
  embedded code, only comparisons).
* A Go `error` is `Option Err` (`none` is `nil`).
* A Go slice is `Option (List α)` (`none` is the `nil` slice).
* The database behind `*sql.DB` is an explicit state `DB`: the two tables, the
  working copy of an open transaction, a log of every statement sent to the
  store, and failure injection for every statement, row mapping and iteration.
-/

namespace Notes

/-! ## Errors -/

/-- Go `error` values that occur in the package. `ErrNoRows` and `ErrTxDone` are the
`database/sql` sentinels, `fault` is any failure of the store (driver, network,
cancelled context), `wrap` is an error wrapping another one. -/
inductive Err where
  | ErrNoRows : Err
  | ErrTxDone : Err
  | fault (msg : String) : Err
  | wrap (msg : String) (inner : Err) : Err
  deriving DecidableEq, Repr

/-- Go `errors.Is(err, target)` for a non-nil `err`. -/
def Err.is : Err → Err → Bool
  | .wrap msg inner, target =>
      decide (Err.wrap msg inner = target) || Err.is inner target
  | e, target => decide (e = target)

/-- Go `errors.Is(err, target)`; a `nil` error is nothing. -/
def errorsIs (err : Option Err) (target : Err) : Bool :=
  match err with
  | none => false
  | some e => e.is target

/-- Go `err.Error()`. -/
def Err.Error : Err → String
  | .ErrNoRows => "sql: no rows in result set"
  | .ErrTxDone => "sql: transaction has already been committed or rolled back"
  | .fault msg => msg
  | .wrap msg _ => msg

/-! ## Data model (`models.go`)

A `time.Time` is the instant it denotes, an `Int`: nanoseconds since the zero time. -/

/-- A Go slice: `none` is `nil`. -/
abbrev Slice (α : Type) := Option (List α)

/-- Go `len(s)`. -/
def Slice.len {α : Type} (s : Slice α) : Nat :=
  match s with
  | none => 0
  | some l => l.length

structure Note where
  ID : Int
  Title : String
  Content : String
  CreatedAt : Int
  deriving DecidableEq, Repr

/-- The zero value `Note{}`. -/
def Note.zero : Note := ⟨0, "", "", 0⟩

structure CreateNoteRequest where
  Title : String
  Content : String
  deriving DecidableEq, Repr

structure UpdateNoteRequest where
  Title : String
  Content : String
  deriving DecidableEq, Repr

structure BatchRequest where
  IDs : Slice Int
  deriving DecidableEq, Repr

/-- A row of `notes_audit (note_id, action)`. -/
structure AuditEntry where
  noteID : Int
  action : String
  deriving DecidableEq, Repr

structure ListParams where
  Limit : Int
  CursorCreatedAt : Option Int
  CursorID : Option Int
  Query : String
  deriving DecidableEq, Repr

/-! ## The store -/

/-- The statements of `repository.go`, with their bound arguments, and the
transaction control commands that `BeginTx`, `Commit` and `Rollback` send. -/
inductive Stmt where
  /-- Statement `INSERT INTO notes (title, content) VALUES ($1, $2) RETURNING ...` -/
  | insertNote (title content : String) : Stmt
  /-- Statement `INSERT INTO notes_audit (note_id, action) VALUES ($1, $2)` -/
  | insertAudit (noteID : Int) (action : String) : Stmt
  /-- Statement `SELECT ... FROM notes WHERE id = $1` -/
  | get (id : Int) : Stmt
  /-- Statement `UPDATE notes SET title = $1, content = $2 WHERE id = $3 RETURNING ...` -/
  | update (title content : String) (id : Int) : Stmt
  /-- Statement `DELETE FROM notes WHERE id = $1` -/
  | delete (id : Int) : Stmt
  /-- Statement `SELECT ... WHERE to_tsvector('simple', title) @@ plainto_tsquery('simple', $1)
  ORDER BY created_at DESC, id DESC LIMIT $2` -/
  | search (query : String) (limit : Int) : Stmt
  /-- Statement `SELECT ... WHERE (created_at, id) < ($1, $2)
  ORDER BY created_at DESC, id DESC LIMIT $3` -/
  | keyset (createdAt : Int) (id : Int) (limit : Int) : Stmt
  /-- Statement `SELECT ... FROM notes ORDER BY created_at DESC, id DESC LIMIT $1` -/
  | firstPage (limit : Int) : Stmt
  /-- Statement `SELECT ... WHERE id = ANY($1) ORDER BY created_at DESC, id DESC` -/
  | batch (ids : List Int) : Stmt
  | begin : Stmt
  | commit : Stmt
  | rollback : Stmt
  deriving DecidableEq, Repr

/-- The two tables. -/
structure Tables where
  notes : List Note
  audit : List AuditEntry
  deriving DecidableEq, Repr

/-- The database reached through `*sql.DB`. -/
structure DB where
  /-- committed rows of `notes` -/
  notes : List Note
  /-- committed rows of `notes_audit` -/
  audit : List AuditEntry
  /-- working copy of the open transaction, if any -/
  pending : Option Tables
  /-- next value of the id sequence -/
  nextID : Int
  /-- the clock read by the `created_at` default -/
  now : Int
  /-- the match `to_tsvector('simple', title) @@ plainto_tsquery('simple', query)` -/
  ftsMatch : String → String → Bool
  /-- failure injected into the execution of a statement -/
  fault : Stmt → Option String
  /-- failure injected into the mapping of a row: the index of the first column
  that cannot be converted, and the message -/
  scanFault : Note → Option (Nat × String)
  /-- failure injected into the iteration over a result: how many rows are
  delivered before it, and the message -/
  iterFault : Stmt → Option (Nat × String)
  /-- failure injected into the closing of a result -/
  closeFault : Stmt → Option String
  /-- failure injected into `RowsAffected()` on the result of a statement: the count
  it returns along with its error, and the message -/
  rowsAffectedFault : Stmt → Option (Int × String)
  /-- every statement sent to the store, oldest first -/
  log : List Stmt

/-- The SQL row comparison `(t₁, i₁) < (t₂, i₂)`. -/
def rowLess (a b : Int × Int) : Bool :=
  decide (a.1 < b.1) || (decide (a.1 = b.1) && decide (a.2 < b.2))

/-- The sort key `(created_at, id)` of a row. -/
def Note.key (n : Note) : Int × Int := (n.CreatedAt, n.ID)

/-- The relation "`a` may precede `b`" of `ORDER BY created_at DESC, id DESC`. -/
def descOrder (a b : Note) : Prop := rowLess a.key b.key = false

instance : DecidableRel descOrder := fun a b =>
  inferInstanceAs (Decidable (rowLess a.key b.key = false))

/-- The clause `ORDER BY created_at DESC, id DESC`. -/
def orderDesc (l : List Note) : List Note := List.insertionSort descOrder l

/-- The clause `LIMIT n`. -/
def sqlLimit (limit : Int) (l : List Note) : List Note := l.take limit.toNat

/-- Modelled from the spec: the schema of `notes` is not part of the sources; the
id of an inserted note is the next value of a sequence and its `created_at` the
clock of the store. -/
def insertedNote (db : DB) (title content : String) : Note :=
  ⟨db.nextID, title, content, db.now⟩

/-- The effect of a statement on the tables, the rows it returns and the number of
rows it affected. -/
def evalStmt (db : DB) (t : Tables) : Stmt → Tables × List Note × Int
  | .insertNote title content =>
      let n := insertedNote db title content
      ({ t with notes := t.notes ++ [n] }, [n], 1)
  | .insertAudit noteID action =>
      ({ t with audit := t.audit ++ [⟨noteID, action⟩] }, [], 1)
  | .get id => (t, t.notes.filter (fun n => decide (n.ID = id)), 0)
  | .update title content id =>
      let notes := t.notes.map
        (fun n => if n.ID = id then { n with Title := title, Content := content } else n)
      ({ t with notes := notes }, notes.filter (fun n => decide (n.ID = id)),
        ((t.notes.filter (fun n => decide (n.ID = id))).length : Int))
  | .delete id =>
      ({ t with notes := t.notes.filter (fun n => !decide (n.ID = id)) }, [],
        ((t.notes.filter (fun n => decide (n.ID = id))).length : Int))
  | .search query limit =>
      (t, sqlLimit limit (orderDesc (t.notes.filter (fun n => db.ftsMatch n.Title query))), 0)
  | .keyset createdAt id limit =>
      (t, sqlLimit limit
        (orderDesc (t.notes.filter (fun n => rowLess n.key (createdAt, id)))), 0)
  | .firstPage limit => (t, sqlLimit limit (orderDesc t.notes), 0)
  | .batch ids =>
      (t, orderDesc (t.notes.filter (fun n => ids.contains n.ID)), 0)
  | .begin => (t, [], 0)
  | .commit => (t, [], 0)
  | .rollback => (t, [], 0)

/-- The destination of `Scan(&n.ID, &n.Title, &n.Content, &n.CreatedAt)` when the
conversion of column `k` fails: the columns before `k` have been assigned. -/
def scanUpTo (k : Nat) (row : Note) : Note :=
  { ID := if 0 < k then row.ID else 0
    Title := if 1 < k then row.Title else ""
    Content := if 2 < k then row.Content else ""
    CreatedAt := if 3 < k then row.CreatedAt else 0 }

/-- The outcome of scanning one row into a fresh `Note`. -/
def scanRow (db : DB) (row : Note) : Note × Option Err :=
  match db.scanFault row with
  | none => (row, none)
  | some (k, msg) => (scanUpTo k row, some (.fault msg))

/-- A `*sql.Rows`: the outcome of `Scan` for each row that `Next` delivers, the
value of `Err()` once `Next` has returned false, and the value of a `Close()` called
after a row has been delivered. -/
structure Rows where
  items : List (Note × Option Err)
  err : Option Err
  closeErr : Option Err
  deriving DecidableEq, Repr

/-- The result set that the store hands out for the rows of statement `s`. When the
iteration fails, `Err()` is its error. When it reaches the end of the rows, `Next`
closes the result, and `Err()` is the error of that `Close`, if any. -/
def mkRows (db : DB) (s : Stmt) (rows : List Note) : Rows :=
  match db.iterFault s with
  | none =>
      ⟨rows.map (scanRow db), (db.closeFault s).map Err.fault,
        (db.closeFault s).map Err.fault⟩
  | some (k, msg) =>
      ⟨(rows.take k).map (scanRow db), some (.fault msg), (db.closeFault s).map Err.fault⟩

/-- A `sql.Result`: what `RowsAffected()` returns. -/
structure Result where
  rowsAffected : Int
  rowsAffectedErr : Option Err
  deriving DecidableEq, Repr

/-- The tables a statement sees: the working copy inside a transaction, the
committed tables otherwise. -/
def DB.view (db : DB) (inTx : Bool) : Tables :=
  match inTx, db.pending with
  | true, some t => t
  | _, _ => ⟨db.notes, db.audit⟩

/-- The store after a statement produced tables `t`: inside a transaction the
working copy changes, otherwise the statement commits on its own. The id sequence
advances with every inserted note and is not transactional. -/
def DB.store (db : DB) (inTx : Bool) (s : Stmt) (t : Tables) : DB :=
  let seq := match s with
    | .insertNote _ _ => db.nextID + 1
    | _ => db.nextID
  match inTx, db.pending with
  | true, some _ => { db with pending := some t, nextID := seq }
  | _, _ => { db with notes := t.notes, audit := t.audit, nextID := seq }

/-- Send statement `s` to the store: it is logged, fails if a failure is injected,
and otherwise takes effect and yields its rows and affected-row count. -/
def DB.run (db : DB) (inTx : Bool) (s : Stmt) : DB × Except Err (List Note × Int) :=
  let db1 := { db with log := db.log ++ [s] }
  match db.fault s with
  | some msg => (db1, .error (.fault msg))
  | none =>
      let r := evalStmt db (db.view inTx) s
      (db1.store inTx s r.1, .ok r.2)

/-- Go `QueryContext` on `*sql.DB` (`inTx = false`) or on `*sql.Tx`. -/
def DB.QueryContext (db : DB) (inTx : Bool) (s : Stmt) : DB × Except Err Rows :=
  match db.run inTx s with
  | (db1, .error e) => (db1, .error e)
  | (db1, .ok r) => (db1, .ok (mkRows db s r.1))

/-- Go `ExecContext` on `*sql.DB`, `*sql.Stmt` or `*sql.Tx`. The result reports the
affected-row count of the command, or what a failing `RowsAffected()` returns. -/
def DB.ExecContext (db : DB) (inTx : Bool) (s : Stmt) : DB × Except Err Result :=
  match db.run inTx s with
  | (db1, .error e) => (db1, .error e)
  | (db1, .ok r) =>
      match db.rowsAffectedFault s with
      | none => (db1, .ok ⟨r.2, none⟩)
      | some (a, msg) => (db1, .ok ⟨a, some (.fault msg)⟩)

/-- Go `QueryRowContext(...).Scan(&n.ID, &n.Title, &n.Content, &n.CreatedAt)` into a
fresh `n`: the query error if any; when there is no row, the value of `Err()` (the
error of the iteration or of the closing of the result) if it is one and
`ErrNoRows` otherwise; when there is a row, the error of scanning it or, when it is
scanned, of closing the result. -/
def DB.QueryRowScan (db : DB) (inTx : Bool) (s : Stmt) : DB × (Note × Option Err) :=
  match db.QueryContext inTx s with
  | (db1, .error e) => (db1, (Note.zero, some e))
  | (db1, .ok rows) =>
      match rows.items with
      | [] =>
          match rows.err with
          | some e => (db1, (Note.zero, some e))
          | none => (db1, (Note.zero, some .ErrNoRows))
      | (n, some e) :: _ => (db1, (n, some e))
      | (n, none) :: _ => (db1, (n, rows.closeErr))

/-! ## `repository.go` -/

/-- The loop of `scanNotes`: `out` grows by every row scanned; a row that cannot
be scanned ends the loop with its error. -/
def scanLoop (out : List Note) : List (Note × Option Err) → Except Err (List Note)
  | [] => .ok out
  | (n, none) :: rest => scanLoop (out ++ [n]) rest
  | (_, some e) :: _ => .error e

def scanNotes (rows : Rows) : Slice Note × Option Err :=
  match scanLoop [] rows.items with
  | .error e => (none, some e)
  | .ok out => (some out, rows.err)

/-- The first two lines of `Repository.List`: the limit in force after
`if p.Limit <= 0 || p.Limit > 200 { p.Limit = 20 }`. -/
def clampLimit (p : ListParams) : ListParams :=
  if p.Limit ≤ 0 ∨ p.Limit > 200 then { p with Limit := 20 } else p

/-- The result of `rows, err := r.db.QueryContext(...)` followed by
`return nil, err` or `return scanNotes(rows)`. -/
def queryNotes (db : DB) (s : Stmt) : DB × (Slice Note × Option Err) :=
  match db.QueryContext false s with
  | (db1, .error e) => (db1, (none, some e))
  | (db1, .ok rows) => (db1, scanNotes rows)

def Repository.List (db : DB) (p0 : ListParams) : DB × (Slice Note × Option Err) :=
  let p := clampLimit p0
  if p.Query ≠ "" then
    queryNotes db (.search p.Query p.Limit)
  else
    match p.CursorCreatedAt, p.CursorID with
    | some createdAt, some id => queryNotes db (.keyset createdAt id p.Limit)
    | _, _ => queryNotes db (.firstPage p.Limit)

def Repository.BatchGet (db : DB) (ids : Slice Int) : DB × (Slice Note × Option Err) :=
  if Slice.len ids = 0 then
    (db, (some [], none))
  else
    queryNotes db (.batch (ids.getD []))

def Repository.Get (db : DB) (id : Int) : DB × (Note × Option Err) :=
  match db.QueryRowScan false (.get id) with
  | (db1, (n, err)) =>
      if errorsIs err .ErrNoRows then (db1, (Note.zero, some .ErrNoRows))
      else (db1, (n, err))

def Repository.Update (db : DB) (id : Int) (title content : String) :
    DB × (Note × Option Err) :=
  match db.QueryRowScan false (.update title content id) with
  | (db1, (n, err)) =>
      if errorsIs err .ErrNoRows then (db1, (Note.zero, some .ErrNoRows))
      else (db1, (n, err))

def Repository.Delete (db : DB) (id : Int) : DB × Option Err :=
  match db.ExecContext false (.delete id) with
  | (db1, .error e) => (db1, some e)
  | (db1, .ok res) =>
      -- a, _ := res.RowsAffected()
      let a := res.rowsAffected
      if a = 0 then (db1, some .ErrNoRows) else (db1, none)

/-- Go `r.db.BeginTx(ctx, &sql.TxOptions{Isolation: sql.LevelReadCommitted})`: on
success the transaction works on a copy of the committed tables. -/
def DB.BeginTx (db : DB) : DB × Option Err :=
  let db1 := { db with log := db.log ++ [Stmt.begin] }
  match db.fault .begin with
  | some msg => (db1, some (.fault msg))
  | none => ({ db1 with pending := some ⟨db.notes, db.audit⟩ }, none)

/-- Go `tx.Commit()`: `ErrTxDone` when the transaction is over; a failed commit
leaves the committed tables as they were and ends the transaction. -/
def DB.Commit (db : DB) : DB × Option Err :=
  match db.pending with
  | none => (db, some .ErrTxDone)
  | some t =>
      let db1 := { db with log := db.log ++ [Stmt.commit], pending := none }
      match db.fault .commit with
      | some msg => (db1, some (.fault msg))
      | none => ({ db1 with notes := t.notes, audit := t.audit }, none)

/-- Go `tx.Rollback()`: `ErrTxDone`, and nothing else, when the transaction is over;
otherwise the working copy is dropped. -/
def DB.Rollback (db : DB) : DB × Option Err :=
  match db.pending with
  | none => (db, some .ErrTxDone)
  | some _ =>
      let db1 := { db with log := db.log ++ [Stmt.rollback], pending := none }
      match db.fault .rollback with
      | some msg => (db1, some (.fault msg))
      | none => (db1, none)

/-- The body of `Repository.Create` after `BeginTx` succeeded, up to its `return`. -/
def Repository.createBody (db : DB) (title content : String) : DB × (Note × Option Err) :=
  match db.QueryRowScan true (.insertNote title content) with
  | (db1, (_, some e)) => (db1, (Note.zero, some e))
  | (db1, (n, none)) =>
      match db1.ExecContext true (.insertAudit n.ID "create") with
      | (db2, .error e) => (db2, (Note.zero, some e))
      | (db2, .ok _) =>
          match db2.Commit with
          | (db3, some e) => (db3, (Note.zero, some e))
          | (db3, none) => (db3, (n, none))

def Repository.Create (db : DB) (title content : String) : DB × (Note × Option Err) :=
  match db.BeginTx with
  | (db1, some e) => (db1, (Note.zero, some e))
  | (db1, none) =>
      let r := Repository.createBody db1 title content
      -- defer tx.Rollback()
      ((DB.Rollback r.1).1, r.2)

/-- The `LIMIT` argument of a listing statement. -/
def Stmt.limit? : Stmt → Option Int
  | .search _ limit => some limit
  | .keyset _ _ limit => some limit
  | .firstPage limit => some limit
  | _ => none

/-! ## Sample data -/

def noteA : Note := ⟨1, "alpha", "first", 10⟩

def noteB : Note := ⟨2, "beta", "second", 20⟩

def noteC : Note := ⟨3, "gamma", "third", 30⟩

/-- A store holding the notes A, B, C, created in this order, that works without
failure; a title matches a query when they are equal. -/
def sampleDB : DB :=
  { notes := [noteA, noteB, noteC]
    audit := [⟨1, "create"⟩, ⟨2, "create"⟩, ⟨3, "create"⟩]
    pending := none
    nextID := 4
    now := 40
    ftsMatch := fun title query => title == query
    fault := fun _ => none
    scanFault := fun _ => none
    iterFault := fun _ => none
    closeFault := fun _ => none
    rowsAffectedFault := fun _ => none
    log := [] }

/-- The statement that `Repository.List` issues for `p`. -/
def listStmt (p : ListParams) : Stmt :=
  if p.Query ≠ "" then .search p.Query (clampLimit p).Limit
  else
    match p.CursorCreatedAt, p.CursorID with
    | some createdAt, some id => .keyset createdAt id (clampLimit p).Limit
    | _, _ => .firstPage (clampLimit p).Limit

/-! ## Predicates and clients used in the properties -/

/-- A store without injected failures. -/
def DB.healthy (db : DB) : Prop :=
  (∀ s, db.fault s = none) ∧ (∀ n, db.scanFault n = none) ∧
    (∀ s, db.iterFault s = none) ∧ (∀ s, db.closeFault s = none)

/-- A client that pages through the listing: `Repository.List` with the given limit
and no query, first without cursor, then with the cursor that `Handlers.list` derives
from a page (`created_at` and `id` of its last item), until a page is empty. The
result is the sequence of non-empty pages; `none` when a call fails or the fuel does
not suffice. -/
def listAll (limit : Int) : Nat → DB → Option Int → Option Int → Option (List (List Note))
  | 0, _, _, _ => none
  | fuel + 1, db, cursorAt, cursorID =>
      match Repository.List db ⟨limit, cursorAt, cursorID, ""⟩ with
      | (db1, (some items, none)) =>
          match items.getLast? with
          | none => some []
          | some last =>
              (listAll limit fuel db1 (some last.CreatedAt) (some last.ID)).map
                (fun pages => items :: pages)
      | _ => none

/-- Strictly decreasing order of rows by `(created_at, id)`. -/
def strictDesc (a b : Note) : Prop := rowLess b.key a.key = true

instance : IsTotal Note descOrder where
  total a b := by
    simp only [descOrder, rowLess, Bool.or_eq_false_iff, Bool.and_eq_false_imp,
      decide_eq_false_iff_not, decide_eq_true_eq]
    omega

instance : IsTrans Note descOrder where
  trans a b c := by
    simp only [descOrder, rowLess, Bool.or_eq_false_iff, Bool.and_eq_false_imp,
      decide_eq_false_iff_not, decide_eq_true_eq]
    omega

instance : IsAntisymm Note strictDesc where
  antisymm a b := by
    simp only [strictDesc, rowLess, Bool.or_eq_true, Bool.and_eq_true, decide_eq_true_eq]
    intro h1 h2
    omega

/-- Rows with pairwise distinct ids. -/
def distinctIDs (l : List Note) : Prop := l.Pairwise (fun a b => a.ID ≠ b.ID)

/-- The rows of `notes` with the given id. -/
def DB.matching (db : DB) (id : Int) : List Note :=
  db.notes.filter (fun n => decide (n.ID = id))

/-- The row that `UPDATE ... SET title = $1, content = $2` makes of row `n`. -/
def Note.updated (n : Note) (title content : String) : Note :=
  { n with Title := title, Content := content }

/-- The note insert of `Create` goes through: neither the statement, nor the
delivery, the scan or the closing of the returned row fails. -/
def DB.insertSucceeds (db : DB) (title content : String) : Prop :=
  db.fault (.insertNote title content) = none ∧
  (∀ msg, db.iterFault (.insertNote title content) ≠ some (0, msg)) ∧
  db.scanFault (insertedNote db title content) = none ∧
  db.closeFault (.insertNote title content) = none

/-! ## `handlers.go` -/

/-- The `Store` interface: what each method returns for its arguments. -/
structure Store where
  Create : String → String → Note × Option Err
  Get : Int → Note × Option Err
  Update : Int → String → String → Note × Option Err
  Delete : Int → Option Err
  List : ListParams → Slice Note × Option Err
  BatchGet : Slice Int → Slice Note × Option Err

/-- A call of a `Store` method, with its arguments. -/
inductive StoreCall where
  | Create (title content : String) : StoreCall
  | Get (id : Int) : StoreCall
  | Update (id : Int) (title content : String) : StoreCall
  | Delete (id : Int) : StoreCall
  | List (p : ListParams) : StoreCall
  | BatchGet (ids : Slice Int) : StoreCall
  deriving DecidableEq, Repr

/-- The repository on store `db` behind the `Store` interface, as `main.go` wires
it (`notes.NewHandlers(repo)`). -/
def Repository.asStore (db : DB) : Store :=
  { Create := fun title content => (Repository.Create db title content).2
    Get := fun id => (Repository.Get db id).2
    Update := fun id title content => (Repository.Update db id title content).2
    Delete := fun id => (Repository.Delete db id).2
    List := fun p => (Repository.List db p).2
    BatchGet := fun ids => (Repository.BatchGet db ids).2 }

/-- The library functions that the handlers call and that are not part of the
sources. -/
structure Lib where
  /-- Go `json.NewDecoder(r.Body).Decode(&req)` for a `CreateNoteRequest` -/
  decodeCreate : String → Except Err CreateNoteRequest
  /-- Go `json.NewDecoder(r.Body).Decode(&req)` for an `UpdateNoteRequest` -/
  decodeUpdate : String → Except Err UpdateNoteRequest
  /-- Go `json.NewDecoder(r.Body).Decode(&req)` for a `BatchRequest` -/
  decodeBatch : String → Except Err BatchRequest
  /-- Go `time.Parse(time.RFC3339Nano, s)` -/
  parseTime : String → Option Int
  /-- Go `t.Format(time.RFC3339Nano)` -/
  formatTime : Int → String

/-- The value of a decimal digit. -/
def digitVal (c : Char) : Option Nat :=
  if '0' ≤ c ∧ c ≤ '9' then some (c.toNat - 48) else none

/-- The number that a sequence of decimal digits denotes. -/
def parseDigits : List Char → Nat → Option Nat
  | [], acc => some acc
  | c :: cs, acc =>
      match digitVal c with
      | none => none
      | some d => parseDigits cs (acc * 10 + d)

/-- Go `strconv.ParseInt(s, 10, 64)` (and `strconv.Atoi(s)`, an `int` having 64
bits): an optional sign followed by at least one decimal digit, in the range of
`int64`; `none` stands for the error. -/
def parseInt64 (s : String) : Option Int :=
  match s.data with
  | [] => none
  | c :: cs =>
      let neg := c == '-'
      let digits := if c == '+' || c == '-' then cs else c :: cs
      if digits.isEmpty then none
      else
        match parseDigits digits 0 with
        | none => none
        | some un =>
            if !neg && decide (2 ^ 63 ≤ un) then none
            else if neg && decide (2 ^ 63 < un) then none
            else some (if neg then -(un : Int) else (un : Int))

/-- What a handler reads of a request. -/
structure Request where
  /-- Go `chi.URLParam(r, "id")` -/
  idParam : String
  /-- the content of `r.Body` -/
  body : String
  /-- Go `r.URL.Query().Get(key)`: the empty string when the parameter is missing -/
  query : String → String

/-- The value that a handler encodes as the JSON body of its response. -/
inductive Body where
  /-- Go `map[string]string{"error": msg}` -/
  | error (msg : String) : Body
  | note (n : Note) : Body
  /-- Go `map[string]any` with `items` and, when present, `next_cursor_created_at`
  and `next_cursor_id` -/
  | page (items : Slice Note) (nextCursorCreatedAt : Option String)
      (nextCursorID : Option Int) : Body
  /-- Go `map[string]any{"items": items}` -/
  | items (items : Slice Note) : Body
  /-- no body written -/
  | empty : Body
  deriving DecidableEq, Repr

structure Response where
  status : Nat
  /-- the `Content-Type` header, when set -/
  contentType : Option String
  body : Body
  deriving DecidableEq, Repr

/-- What a handler did: the `Store` methods it called, in order, and the response
it wrote. -/
structure Outcome where
  calls : List StoreCall
  resp : Response
  deriving DecidableEq, Repr

def StatusOK : Nat := 200

def StatusCreated : Nat := 201

def StatusNoContent : Nat := 204

def StatusBadRequest : Nat := 400

def StatusNotFound : Nat := 404

def StatusInternalServerError : Nat := 500

def writeJSON (status : Nat) (v : Body) : Response :=
  ⟨status, some "application/json", v⟩

def Handlers.create (lib : Lib) (store : Store) (r : Request) : Outcome :=
  match lib.decodeCreate r.body with
  | .error _ => ⟨[], writeJSON StatusBadRequest (.error "invalid json")⟩
  | .ok req =>
      if req.Title = "" ∨ req.Content = "" then
        ⟨[], writeJSON StatusBadRequest (.error "title and content required")⟩
      else
        match store.Create req.Title req.Content with
        | (_, some err) =>
            ⟨[.Create req.Title req.Content],
              writeJSON StatusInternalServerError (.error err.Error)⟩
        | (n, none) => ⟨[.Create req.Title req.Content], writeJSON StatusCreated (.note n)⟩

def Handlers.get (store : Store) (r : Request) : Outcome :=
  match parseInt64 r.idParam with
  | none => ⟨[], writeJSON StatusBadRequest (.error "invalid id")⟩
  | some id =>
      match store.Get id with
      | (n, err) =>
          if err = some .ErrNoRows then
            ⟨[.Get id], writeJSON StatusNotFound (.error "not found")⟩
          else
            match err with
            | some e => ⟨[.Get id], writeJSON StatusInternalServerError (.error e.Error)⟩
            | none => ⟨[.Get id], writeJSON StatusOK (.note n)⟩

def Handlers.update (lib : Lib) (store : Store) (r : Request) : Outcome :=
  match parseInt64 r.idParam with
  | none => ⟨[], writeJSON StatusBadRequest (.error "invalid id")⟩
  | some id =>
      match lib.decodeUpdate r.body with
      | .error _ => ⟨[], writeJSON StatusBadRequest (.error "invalid json")⟩
      | .ok req =>
          if req.Title = "" ∨ req.Content = "" then
            ⟨[], writeJSON StatusBadRequest (.error "title and content required")⟩
          else
            match store.Update id req.Title req.Content with
            | (n, err) =>
                if err = some .ErrNoRows then
                  ⟨[.Update id req.Title req.Content],
                    writeJSON StatusNotFound (.error "not found")⟩
                else
                  match err with
                  | some e =>
                      ⟨[.Update id req.Title req.Content],
                        writeJSON StatusInternalServerError (.error e.Error)⟩
                  | none => ⟨[.Update id req.Title req.Content], writeJSON StatusOK (.note n)⟩

def Handlers.delete (store : Store) (r : Request) : Outcome :=
  match parseInt64 r.idParam with
  | none => ⟨[], writeJSON StatusBadRequest (.error "invalid id")⟩
  | some id =>
      let err := store.Delete id
      if err = some .ErrNoRows then
        ⟨[.Delete id], writeJSON StatusNotFound (.error "not found")⟩
      else
        match err with
        | some e => ⟨[.Delete id], writeJSON StatusInternalServerError (.error e.Error)⟩
        | none => ⟨[.Delete id], ⟨StatusNoContent, none, .empty⟩⟩

/-- The parameters that `Handlers.list` passes to `store.List`. -/
def Handlers.listParams (lib : Lib) (r : Request) : ListParams :=
  let q := r.query "q"
  let limit : Int :=
    if r.query "limit" ≠ "" then
      match parseInt64 (r.query "limit") with
      | some v => v
      | none => 20
    else 20
  let cursorAt : Option Int :=
    if r.query "cursor_created_at" ≠ "" then lib.parseTime (r.query "cursor_created_at")
    else none
  let cursorID : Option Int :=
    if r.query "cursor_id" ≠ "" then parseInt64 (r.query "cursor_id") else none
  { Limit := limit, CursorCreatedAt := cursorAt, CursorID := cursorID, Query := q }

def Handlers.list (lib : Lib) (store : Store) (r : Request) : Outcome :=
  let p := Handlers.listParams lib r
  match store.List p with
  | (_, some err) => ⟨[.List p], writeJSON StatusInternalServerError (.error err.Error)⟩
  | (items, none) =>
      if 0 < Slice.len items then
        match (items.getD []).getLast? with
        | some last =>
            ⟨[.List p], writeJSON StatusOK
              (.page items (some (lib.formatTime last.CreatedAt)) (some last.ID))⟩
        | none => ⟨[.List p], writeJSON StatusOK (.page items none none)⟩
      else ⟨[.List p], writeJSON StatusOK (.page items none none)⟩

def Handlers.batch (lib : Lib) (store : Store) (r : Request) : Outcome :=
  match lib.decodeBatch r.body with
  | .error _ => ⟨[], writeJSON StatusBadRequest (.error "invalid json")⟩
  | .ok req =>
      match store.BatchGet req.IDs with
      | (_, some err) =>
          ⟨[.BatchGet req.IDs], writeJSON StatusInternalServerError (.error err.Error)⟩
      | (items, none) => ⟨[.BatchGet req.IDs], writeJSON StatusOK (.items items)⟩

/-- A sample instance of the library functions: the decoders know the two request
bodies of the handler tests and reject every other body, the time functions know
the creation times of the sample notes. -/
def sampleLib : Lib :=
  { decodeCreate := fun body =>
      if body = "\x7b\"title\":\"t\",\"content\":\"c\"\x7d" then .ok ⟨"t", "c"⟩
      else if body = "\x7b\"title\":\"\",\"content\":\"x\"\x7d" then .ok ⟨"", "x"⟩
      else .error (.fault "invalid character")
    decodeUpdate := fun body =>
      if body = "\x7b\"title\":\"t\",\"content\":\"c\"\x7d" then .ok ⟨"t", "c"⟩
      else if body = "\x7b\"title\":\"\",\"content\":\"x\"\x7d" then .ok ⟨"", "x"⟩
      else .error (.fault "invalid character")
    decodeBatch := fun body =>
      if body = "\x7b\"ids\":[1]\x7d" then .ok ⟨some [1]⟩
      else .error (.fault "invalid character")
    parseTime := fun s =>
      if s = "0001-01-01T00:00:00.00000001Z" then some 10
      else if s = "0001-01-01T00:00:00.00000002Z" then some 20
      else if s = "0001-01-01T00:00:00.00000003Z" then some 30
      else none
    formatTime := fun t =>
      if t = 10 then "0001-01-01T00:00:00.00000001Z"
      else if t = 20 then "0001-01-01T00:00:00.00000002Z"
      else if t = 30 then "0001-01-01T00:00:00.00000003Z"
      else "" }

/-- The request `GET /notes?limit=2`. -/
def sampleListRequest : Request :=
  { idParam := "", body := "", query := fun key => if key = "limit" then "2" else "" }

/-- The sample store when the closing of every result fails with "close boom". -/
def closeDB : DB :=
  { sampleDB with closeFault := fun _ => some "close boom" }

/-- The sample store when every statement but `BEGIN` fails with "down". -/
def downDB : DB :=
  { sampleDB with fault := fun s => if s = .begin then none else some "down" }

/-- The request `GET /notes?limit=0&cursor_created_at=yesterday&cursor_id=abc`. -/
def sampleOddRequest : Request :=
  { idParam := "", body := ""
    query := fun key =>
      if key = "limit" then "0"
      else if key = "cursor_created_at" then "yesterday"
      else if key = "cursor_id" then "abc"
      else "" }

end Notes

/-! # Package `encoding/json`, as far as the handlers use it

A model of `json.NewDecoder(r.Body).Decode(&req)` for the two note requests: the
decoder reads the first JSON value of the body (RFC 8259 syntax) and stores it in
the request. -/

namespace Json

/-- A JSON value, as `encoding/json` reads it. -/
inductive Value where
  | null : Value
  | bool (b : Bool) : Value
  | number (text : List Char) : Value
  | string (s : String) : Value
  | array (items : List Value) : Value
  | object (members : List (String × Value)) : Value

/-- JSON white space. -/
def isSpace (c : Char) : Bool := c == ' ' || c == '\t' || c == '\r' || c == '\n'

/-- The input after its leading white space. -/
def skipSpace (cs : List Char) : List Char := cs.dropWhile isSpace

/-- The value of a hexadecimal digit. -/
def hexVal (c : Char) : Option Nat :=
  if '0' ≤ c ∧ c ≤ '9' then some (c.toNat - 48)
  else if 'a' ≤ c ∧ c ≤ 'f' then some (c.toNat - 87)
  else if 'A' ≤ c ∧ c ≤ 'F' then some (c.toNat - 55)
  else none

/-- The code unit that the four digits of a `\u` escape denote. -/
def hex4 (a b c d : Char) : Option Nat :=
  match hexVal a, hexVal b, hexVal c, hexVal d with
  | some x, some y, some z, some w => some (((x * 16 + y) * 16 + z) * 16 + w)
  | _, _, _, _ => none

/-- The character that a one-letter escape denotes. -/
def escapeVal (c : Char) : Option Nat :=
  if c = '"' then some 34
  else if c = '\\' then some 92
  else if c = '/' then some 47
  else if c = 'b' then some 8
  else if c = 'f' then some 12
  else if c = 'n' then some 10
  else if c = 'r' then some 13
  else if c = 't' then some 9
  else none

/-- The rest of a string literal after its opening quote: the code units of its
content, escapes resolved, and the input after the closing quote; `none` when the
literal is malformed (no closing quote, a control character, a bad escape). -/
def readString : List Char → Option (List Nat × List Char)
  | [] => none
  | c :: rest =>
      if c = '"' then some ([], rest)
      else if c = '\\' then
        match rest with
        | [] => none
        | e :: rest1 =>
            if e = 'u' then
              match rest1 with
              | a :: b :: c2 :: d :: rest2 =>
                  match hex4 a b c2 d with
                  | none => none
                  | some n => (readString rest2).map (fun r => (n :: r.1, r.2))
              | _ => none
            else
              match escapeVal e with
              | none => none
              | some n => (readString rest1).map (fun r => (n :: r.1, r.2))
      else if c.toNat < 32 then none
      else (readString rest).map (fun r => (c.toNat :: r.1, r.2))

/-- The text of a sequence of code units: a high and a low surrogate that come from
two consecutive `\u` escapes form one character, any other surrogate becomes
U+FFFD. -/
def unitsToChars : List Nat → List Char
  | [] => []
  | [n] => if 0xD800 ≤ n ∧ n < 0xE000 then [Char.ofNat 0xFFFD] else [Char.ofNat n]
  | n :: m :: rest =>
      if 0xD800 ≤ n ∧ n < 0xDC00 ∧ 0xDC00 ≤ m ∧ m < 0xE000 then
        Char.ofNat (0x10000 + (n - 0xD800) * 0x400 + (m - 0xDC00)) :: unitsToChars rest
      else if 0xD800 ≤ n ∧ n < 0xE000 then Char.ofNat 0xFFFD :: unitsToChars (m :: rest)
      else Char.ofNat n :: unitsToChars (m :: rest)

/-- The leading decimal digits of the input, and the rest. -/
def digits (cs : List Char) : List Char × List Char := cs.span Char.isDigit

/-- The optional fraction of a number: a point and at least one digit. -/
def readFrac (cs : List Char) : Option (List Char × List Char) :=
  match cs with
  | '.' :: rest =>
      match digits rest with
      | ([], _) => none
      | (ds, rest1) => some ('.' :: ds, rest1)
  | _ => some ([], cs)

/-- The optional exponent of a number: `e` or `E`, an optional sign and at least
one digit. -/
def readExp (cs : List Char) : Option (List Char × List Char) :=
  match cs with
  | [] => some ([], cs)
  | e :: rest =>
      if e = 'e' ∨ e = 'E' then
        let (sign, rest1) :=
          match rest with
          | s :: rest1 => if s = '+' ∨ s = '-' then ([s], rest1) else ([], rest)
          | [] => ([], rest)
        match digits rest1 with
        | ([], _) => none
        | (ds, rest2) => some (e :: sign ++ ds, rest2)
      else some ([], cs)

/-- The integer part of a number: `0`, or a digit from 1 to 9 and more digits. -/
def readInt (cs : List Char) : Option (List Char × List Char) :=
  match cs with
  | [] => none
  | c :: rest =>
      if c = '0' then some (['0'], rest)
      else if '1' ≤ c ∧ c ≤ '9' then
        match digits rest with
        | (ds, rest1) => some (c :: ds, rest1)
      else none

/-- A number literal at the front of the input, and the rest. -/
def readNumber (cs : List Char) : Option (List Char × List Char) :=
  let (sign, rest) :=
    match cs with
    | '-' :: rest => (['-'], rest)
    | _ => ([], cs)
  match readInt rest with
  | none => none
  | some (i, rest1) =>
      match readFrac rest1 with
      | none => none
      | some (f, rest2) =>
          match readExp rest2 with
          | none => none
          | some (e, rest3) => some (sign ++ i ++ f ++ e, rest3)

/-- One of the literals `true`, `false`, `null` at the front of the input. -/
def readLiteral (word : List Char) (v : Value) (cs : List Char) : Option (Value × List Char) :=
  if word.isPrefixOf cs then some (v, cs.drop word.length) else none

/-- The deepest nesting of arrays and objects that the decoder accepts. -/
def maxNestingDepth : Nat := 10000

mutual

/-- The JSON value at the front of the input (after white space) and the input
that follows it, inside `depth` arrays and objects; `none` when there is no
well-formed value. One unit of fuel goes to every value, member and element on the
way down, and each of them has a character of its own (its first character, the
quote that opens its key, the comma or bracket that ends it), so fuel above the
length of the input suffices. -/
def readValue (depth : Nat) : Nat → List Char → Option (Value × List Char)
  | 0, _ => none
  | fuel + 1, cs =>
      match skipSpace cs with
      | [] => none
      | c :: rest =>
          if c = '{' then
            if maxNestingDepth ≤ depth then none
            else
              match skipSpace rest with
              | '}' :: rest1 => some (.object [], rest1)
              | rest1 => (readMembers (depth + 1) fuel rest1).map (fun r => (.object r.1, r.2))
          else if c = '[' then
            if maxNestingDepth ≤ depth then none
            else
              match skipSpace rest with
              | ']' :: rest1 => some (.array [], rest1)
              | rest1 => (readElements (depth + 1) fuel rest1).map (fun r => (.array r.1, r.2))
          else if c = '"' then
            (readString rest).map (fun r => (.string (String.mk (unitsToChars r.1)), r.2))
          else if c = 't' then readLiteral ['t', 'r', 'u', 'e'] (.bool true) (c :: rest)
          else if c = 'f' then readLiteral ['f', 'a', 'l', 's', 'e'] (.bool false) (c :: rest)
          else if c = 'n' then readLiteral ['n', 'u', 'l', 'l'] .null (c :: rest)
          else (readNumber (c :: rest)).map (fun r => (.number r.1, r.2))

/-- The members of an object from its first key to its closing brace. -/
def readMembers (depth : Nat) : Nat → List Char → Option (List (String × Value) × List Char)
  | 0, _ => none
  | fuel + 1, cs =>
      match cs with
      | '"' :: rest =>
          match readString rest with
          | none => none
          | some (k, rest1) =>
              match skipSpace rest1 with
              | ':' :: rest2 =>
                  match readValue depth fuel rest2 with
                  | none => none
                  | some (v, rest3) =>
                      match skipSpace rest3 with
                      | ',' :: rest4 =>
                          (readMembers depth fuel (skipSpace rest4)).map
                            (fun r => ((String.mk (unitsToChars k), v) :: r.1, r.2))
                      | '}' :: rest4 => some ([(String.mk (unitsToChars k), v)], rest4)
                      | _ => none
              | _ => none
      | _ => none

/-- The elements of an array from its first element to its closing bracket. -/
def readElements (depth : Nat) : Nat → List Char → Option (List Value × List Char)
  | 0, _ => none
  | fuel + 1, cs =>
      match readValue depth fuel cs with
      | none => none
      | some (v, rest) =>
          match skipSpace rest with
          | ',' :: rest1 => (readElements depth fuel rest1).map (fun r => (v :: r.1, r.2))
          | ']' :: rest1 => some ([v], rest1)
          | _ => none

end

/-- What `json.Decoder.Decode` reads from a body: the first JSON value, and the rest
of the body, which it leaves unread. The fuel is enough for every body
(`firstValue_complete`): more fuel never reads a value where this reads none. -/
def firstValue (body : String) : Option (Value × List Char) :=
  readValue 0 (body.length + 1) body.data

/-- The body is a JSON text: one value, with nothing but white space around it. -/
def wellFormed (body : String) : Bool :=
  match firstValue body with
  | none => false
  | some (_, rest) => (skipSpace rest).isEmpty

/-- The name of an object key, folded as `encoding/json` folds it to find a field:
ASCII letters in upper case. (Go also folds the Kelvin sign to `K` and the long s to
`S`, letters that the field names `title` and `content` do not have.) -/
def foldName (key : String) : List Char :=
  key.data.map (fun c => if 'a' ≤ c ∧ c ≤ 'z' then Char.ofNat (c.toNat - 32) else c)

/-- The fields of `CreateNoteRequest` and `UpdateNoteRequest`. -/
inductive Field where
  | title : Field
  | content : Field
  deriving DecidableEq, Repr

/-- The field that an object key names: a key matches a field when it equals its
JSON name up to the case of letters. -/
def fieldOf (key : String) : Option Field :=
  if foldName key = foldName "title" then some .title
  else if foldName key = foldName "content" then some .content
  else none

/-- The request while it is decoded: its two fields, and whether a value could not
be stored. -/
structure Fields where
  title : String
  content : String
  failed : Bool
  deriving DecidableEq, Repr

/-- Store one member of the object: a key that names no field is skipped, a string
is stored in its field, `null` leaves the field as it is, and any other value is a
type error, after which decoding goes on. -/
def assign (st : Fields) (m : String × Value) : Fields :=
  match fieldOf m.1, m.2 with
  | none, _ => st
  | some _, .null => st
  | some .title, .string v => { st with title := v }
  | some .content, .string v => { st with content := v }
  | some _, _ => { st with failed := true }

/-- Go `json.NewDecoder(r.Body).Decode(&req)` for a request with the string fields
`title` and `content`, from the zero request: an error when the body has no
well-formed first value, when that value is neither an object nor `null`, or when a
field gets a value that is neither a string nor `null`. What follows the first value
is not read. -/
def decodeNote (body : String) : Except Notes.Err (String × String) :=
  match firstValue body with
  | none => .error (.fault "json: malformed value")
  | some (.null, _) => .ok ("", "")
  | some (.object members, _) =>
      if (members.foldl assign ⟨"", "", false⟩).failed then
        .error (.fault "json: cannot unmarshal value into field of type string")
      else
        .ok ((members.foldl assign ⟨"", "", false⟩).title,
          (members.foldl assign ⟨"", "", false⟩).content)
  | some (_, _) => .error (.fault "json: cannot unmarshal value into request")

/-- The library functions with the note decoders of `encoding/json`; the other
functions are those of `base`. -/
def lib (base : Notes.Lib) : Notes.Lib :=
  { base with
    decodeCreate := fun body =>
      match decodeNote body with
      | .error e => .error e
      | .ok (title, content) => .ok ⟨title, content⟩
    decodeUpdate := fun body =>
      match decodeNote body with
      | .error e => .error e
      | .ok (title, content) => .ok ⟨title, content⟩ }

end Json

/-! # Packages `internal/stringsx` and `internal/service`

In these packages the length of a string and positions in it count bytes, so a Go
`string` is the sequence of its bytes. -/

/-- A Go `string`: a sequence of bytes. -/
abbrev GoString := List UInt8

/-- The Go string literal with the given text: its UTF-8 encoding. -/
def GoString.ofString (s : String) : GoString := s.toUTF8.data.toList

namespace Utf8

/-- The entry of the table `first` of package `unicode/utf8` for a byte that can
start a multi-byte encoding: the size of the encoding and the range accepted for
its second byte; `none` for the bytes that cannot start one. -/
def first (c : UInt8) : Option (Nat × UInt8 × UInt8) :=
  if c < 0xC2 then none
  else if c ≤ 0xDF then some (2, 0x80, 0xBF)
  else if c = 0xE0 then some (3, 0xA0, 0xBF)
  else if c ≤ 0xEC then some (3, 0x80, 0xBF)
  else if c = 0xED then some (3, 0x80, 0x9F)
  else if c ≤ 0xEF then some (3, 0x80, 0xBF)
  else if c = 0xF0 then some (4, 0x90, 0xBF)
  else if c ≤ 0xF3 then some (4, 0x80, 0xBF)
  else if c = 0xF4 then some (4, 0x80, 0x8F)
  else none

/-- The number of bytes that one step of `utf8.RuneCountInString` consumes at the
front of a non-empty string: 1 for an ASCII byte and for a byte that does not start
a complete valid encoding, the size of the encoding otherwise. -/
def runeWidth : GoString → Nat
  | [] => 1
  | c :: rest =>
      if c < 0x80 then 1
      else
        match first c with
        | none => 1
        | some (size, lo, hi) =>
            if rest.length + 1 < size then 1
            else
              match rest with
              | [] => 1
              | c1 :: rest1 =>
                  if c1 < lo ∨ hi < c1 then 1
                  else if size = 2 then 2
                  else
                    match rest1 with
                    | [] => 1
                    | c2 :: rest2 =>
                        if c2 < 0x80 ∨ 0xBF < c2 then 1
                        else if size = 3 then 3
                        else
                          match rest2 with
                          | [] => 1
                          | c3 :: _ => if c3 < 0x80 ∨ 0xBF < c3 then 1 else 4

/-- The loop of `utf8.RuneCountInString`, with fuel for its iterations. -/
def runeCountLoop : Nat → GoString → Nat
  | 0, _ => 0
  | _ + 1, [] => 0
  | fuel + 1, c :: rest => 1 + runeCountLoop fuel ((c :: rest).drop (runeWidth (c :: rest)))

/-- Go `utf8.RuneCountInString(s)`: the number of characters (runes) of `s`, every
byte outside a valid encoding counting as one. The loop consumes at least one byte
per iteration, so `len(s)` iterations suffice. -/
def RuneCountInString (s : GoString) : Nat := runeCountLoop s.length s

end Utf8

namespace Stringsx

def Clip (s : GoString) (max : Int) : GoString :=
  if max ≤ 0 then []
  else if (s.length : Int) ≤ max then s
  else s.take max.toNat

end Stringsx

namespace Service

structure User where
  ID : Int
  Email : GoString
  deriving DecidableEq, Repr

/-- The zero value `User{}`. -/
def User.zero : User := ⟨0, []⟩

/-- Go `error` values of the package: its three sentinels, any other error (of the
repository), and an error wrapping another one. -/
inductive Error where
  | ErrNotFound : Error
  | ErrInvalidEmail : Error
  | ErrAlreadyExists : Error
  | other (msg : String) : Error
  | wrap (msg : String) (inner : Error) : Error
  deriving DecidableEq, Repr

/-- Go `errors.Is(err, target)` for a non-nil `err`. -/
def Error.is : Error → Error → Bool
  | .wrap msg inner, target =>
      decide (Error.wrap msg inner = target) || Error.is inner target
  | e, target => decide (e = target)

/-- Go `errors.Is(err, target)`; a `nil` error is nothing. -/
def errorsIs (err : Option Error) (target : Error) : Bool :=
  match err with
  | none => false
  | some e => e.is target

/-- The `UserRepo` interface: what each method returns for its argument. -/
structure UserRepo where
  ByEmail : GoString → User × Option Error
  Create : GoString → User × Option Error

/-- A call of a `UserRepo` method, with its argument. -/
inductive RepoCall where
  | ByEmail (email : GoString) : RepoCall
  | Create (email : GoString) : RepoCall
  deriving DecidableEq, Repr

/-- What a method of `Service` did: the `UserRepo` methods it called, in order, and
what it returned. -/
structure Outcome (α : Type) where
  calls : List RepoCall
  ret : α × Option Error

/-- The byte `'@'`. -/
def atSign : UInt8 := 64

/-- Go `strings.IndexByte(s, c)`: the index of the first `c` in `s`, or -1. -/
def IndexByte : GoString → UInt8 → Int
  | [], _ => -1
  | b :: rest, c =>
      if b = c then 0
      else if IndexByte rest c < 0 then -1
      else IndexByte rest c + 1

def isEmailLike (s : GoString) : Bool :=
  if s.length < 3 then false
  else
    let idx := IndexByte s atSign
    if idx ≤ 0 ∨ idx = (s.length : Int) - 1 then false
    else true

/-- `Service.FindIDByEmail` on the repository `repo`; `TrimSpace` is Go
`strings.TrimSpace`, which is not part of the sources. -/
def FindIDByEmail (TrimSpace : GoString → GoString) (repo : UserRepo) (email0 : GoString) :
    Outcome Int :=
  let email := TrimSpace email0
  if !isEmailLike email then ⟨[], (0, some .ErrInvalidEmail)⟩
  else
    match repo.ByEmail email with
    | (_, some err) => ⟨[.ByEmail email], (0, some err)⟩
    | (u, none) => ⟨[.ByEmail email], (u.ID, none)⟩

/-- `Service.Register` on the repository `repo`; `TrimSpace` is Go
`strings.TrimSpace`, which is not part of the sources. -/
def Register (TrimSpace : GoString → GoString) (repo : UserRepo) (email0 : GoString) :
    Outcome User :=
  let email := TrimSpace email0
  if !isEmailLike email then ⟨[], (User.zero, some .ErrInvalidEmail)⟩
  else
    match (repo.ByEmail email).2 with
    | none => ⟨[.ByEmail email], (User.zero, some .ErrAlreadyExists)⟩
    | some err =>
        if !errorsIs (some err) .ErrNotFound then ⟨[.ByEmail email], (User.zero, some err)⟩
        else ⟨[.ByEmail email, .Create email], repo.Create email⟩

/-- The claim on the validation, in its own words: the email is shorter than 3
bytes, or contains no `'@'`, or has its first `'@'` at the first or at the last
position. -/
def invalidEmail (s : GoString) : Prop :=
  s.length < 3 ∨ atSign ∉ s ∨ s.head? = some atSign ∨
    (s.getLast? = some atSign ∧ atSign ∉ s.dropLast)

instance (s : GoString) : Decidable (invalidEmail s) := by
  unfold invalidEmail; infer_instance

/-- A sample of `strings.TrimSpace` for texts whose white space is ASCII: leading
and trailing tabs, line feeds, vertical tabs, form feeds, carriage returns and
spaces are removed. -/
def sampleTrimSpace (s : GoString) : GoString :=
  ((s.dropWhile (fun b => b = 32 || (9 ≤ b && b ≤ 13))).reverse.dropWhile
    (fun b => b = 32 || (9 ≤ b && b ≤ 13))).reverse

/-- The repository of the service tests that knows nobody and creates user 100. -/
def emptyRepo : UserRepo :=
  { ByEmail := fun _ => (User.zero, some .ErrNotFound)
    Create := fun email => (⟨100, email⟩, none) }

/-- The repository of the service tests that finds every email as user 7. -/
def fullRepo : UserRepo :=
  { ByEmail := fun email => (⟨7, email⟩, none)
    Create := fun email => (⟨999, email⟩, none) }

/-- The repository of the service tests whose lookup fails with "boom". -/
def boomRepo : UserRepo :=
  { ByEmail := fun _ => (User.zero, some (.other "boom"))
    Create := fun email => (⟨999, email⟩, none) }

end Service

/-! # Theorems -/

namespace Json

/-- Skipping white space never lengthens the input. -/
theorem skipSpace_length_le (cs : List Char) : (skipSpace cs).length ≤ cs.length := by
  unfold skipSpace
  exact (List.dropWhile_sublist _).length_le

/-- A string literal that is read uses at least its closing quote. -/
theorem readString_length : ∀ (n : Nat) (cs : List Char) (u : List Nat) (rest : List Char),
    cs.length ≤ n → readString cs = some (u, rest) → rest.length < cs.length := by
  intro n
  induction n with
  | zero =>
    intro cs u rest hn h
    have : cs = [] := List.length_eq_zero.mp (Nat.le_zero.mp hn)
    subst this
    simp [readString] at h
  | succ n ih =>
    intro cs u rest hn h
    rw [readString.eq_def] at h
    split at h
    · simp at h
    · rename_i c rest0
      simp only [List.length_cons] at hn ⊢
      split at h
      · simp only [Option.some.injEq, Prod.mk.injEq] at h
        rw [← h.2]; omega
      · split at h
        · split at h
          · simp at h
          · rename_i e rest1
            simp only [List.length_cons] at hn ⊢
            split at h
            · split at h
              · rename_i a b c2 d rest2
                simp only [List.length_cons] at hn ⊢
                split at h
                · simp at h
                · rename_i m hm
                  cases hr : readString rest2 with
                  | none => simp [hr] at h
                  | some p =>
                    obtain ⟨u1, r1⟩ := p
                    simp only [hr, Option.map_some', Option.some.injEq, Prod.mk.injEq] at h
                    have := ih rest2 u1 r1 (by omega) hr
                    rw [← h.2]; omega
              · simp at h
            · split at h
              · simp at h
              · cases hr : readString rest1 with
                | none => simp [hr] at h
                | some p =>
                  obtain ⟨u1, r1⟩ := p
                  simp only [hr, Option.map_some', Option.some.injEq, Prod.mk.injEq] at h
                  have := ih rest1 u1 r1 (by omega) hr
                  rw [← h.2]; omega
        · split at h
          · simp at h
          · cases hr : readString rest0 with
            | none => simp [hr] at h
            | some p =>
              obtain ⟨u1, r1⟩ := p
              simp only [hr, Option.map_some', Option.some.injEq, Prod.mk.injEq] at h
              have := ih rest0 u1 r1 (by omega) hr
              rw [← h.2]; omega

/-- Taking the leading digits never lengthens the input. -/
theorem digits_length (cs : List Char) : (digits cs).2.length ≤ cs.length := by
  unfold digits
  rw [List.span_eq_take_drop]
  exact (List.dropWhile_sublist _).length_le

/-- An integer part that is read uses at least one character. -/
theorem readInt_length (cs t rest : List Char) (h : readInt cs = some (t, rest)) :
    rest.length < cs.length := by
  unfold readInt at h
  split at h
  · simp at h
  · rename_i c rest0
    simp only [List.length_cons]
    split at h
    · simp only [Option.some.injEq, Prod.mk.injEq] at h
      rw [← h.2]; omega
    · split at h
      · simp only [Option.some.injEq, Prod.mk.injEq] at h
        have := digits_length rest0
        rw [← h.2]; omega
      · simp at h

/-- Reading the optional fraction never lengthens the input. -/
theorem readFrac_length (cs t rest : List Char) (h : readFrac cs = some (t, rest)) :
    rest.length ≤ cs.length := by
  unfold readFrac at h
  split at h
  · rename_i rest0
    have := digits_length rest0
    split at h
    · simp at h
    · rename_i ds rest1 _ heq
      simp only [Option.some.injEq, Prod.mk.injEq] at h
      rw [heq] at this
      simp only [List.length_cons]
      rw [← h.2]
      simp only at this
      omega
  · simp only [Option.some.injEq, Prod.mk.injEq] at h
    rw [← h.2]

/-- Reading the optional exponent never lengthens the input. -/
theorem readExp_length (cs t rest : List Char) (h : readExp cs = some (t, rest)) :
    rest.length ≤ cs.length := by
  unfold readExp at h
  split at h
  · simp only [Option.some.injEq, Prod.mk.injEq] at h
    rw [← h.2]
  · rename_i e rest0
    split at h
    · simp only [List.length_cons]
      split at h
      rename_i sign rest1 heq
      have h1 : rest1.length ≤ rest0.length := by
        split at heq
        · split at heq
          · simp only [Prod.mk.injEq] at heq
            rw [← heq.2]; simp
          · simp only [Prod.mk.injEq] at heq
            rw [← heq.2]
        · simp only [Prod.mk.injEq] at heq
          rw [← heq.2]
      split at h
      · simp at h
      · rename_i ds rest2 _ hd
        simp only [Option.some.injEq, Prod.mk.injEq] at h
        have := digits_length rest1
        rw [hd] at this
        simp only at this
        rw [← h.2]; omega
    · simp only [Option.some.injEq, Prod.mk.injEq] at h
      rw [← h.2]

/-- A number that is read uses at least one character. -/
theorem readNumber_length (cs t rest : List Char) (h : readNumber cs = some (t, rest)) :
    rest.length < cs.length := by
  unfold readNumber at h
  split at h
  rename_i sign rest0 heq
  have h0 : rest0.length ≤ cs.length := by
    split at heq
    · simp only [Prod.mk.injEq] at heq
      rw [← heq.2]; simp
    · simp only [Prod.mk.injEq] at heq
      rw [← heq.2]
  split at h
  · simp at h
  · rename_i i rest1 hi
    have h1 := readInt_length _ _ _ hi
    split at h
    · simp at h
    · rename_i f rest2 hf
      have h2 := readFrac_length _ _ _ hf
      split at h
      · simp at h
      · rename_i e rest3 he
        have h3 := readExp_length _ _ _ he
        simp only [Option.some.injEq, Prod.mk.injEq] at h
        rw [← h.2]; omega

/-- A literal that is read uses the characters of its word. -/
theorem readLiteral_length (word : List Char) (v x : Value) (cs rest : List Char)
    (hw : 0 < word.length) (h : readLiteral word v cs = some (x, rest)) :
    rest.length < cs.length := by
  unfold readLiteral at h
  split at h
  · rename_i hp
    have := (List.isPrefixOf_iff_prefix.mp hp).length_le
    simp only [Option.some.injEq, Prod.mk.injEq] at h
    rw [← h.2, List.length_drop]; omega
  · simp at h

/-- One more unit of fuel for `readElements`: what it reads uses some input, and
any fuel of at least the number of characters used reads the same. -/
theorem readElements_step (depth f : Nat) (hv : ∀ (cs : List Char) (r : Value × List Char),
      readValue depth f cs = some r →
        r.2.length < cs.length ∧
          ∀ g, cs.length - r.2.length ≤ g → readValue depth g cs = some r)
    (he : ∀ (cs : List Char) (r : List Value × List Char),
      readElements depth f cs = some r →
        r.2.length < cs.length ∧
          ∀ g, cs.length - r.2.length ≤ g → readElements depth g cs = some r)
    (cs : List Char) (r : List Value × List Char)
    (h : readElements depth (f + 1) cs = some r) :
    r.2.length < cs.length ∧
      ∀ g, cs.length - r.2.length ≤ g → readElements depth g cs = some r := by
  rw [readElements] at h
  split at h
  · simp at h
  · rename_i v rest hval
    obtain ⟨hlt, hmono⟩ := hv cs (v, rest) hval
    simp only at hlt hmono
    have hsk := skipSpace_length_le rest
    split at h
    · rename_i rest1 hs
      rw [hs] at hsk
      simp only [List.length_cons] at hsk
      cases hel : readElements depth f rest1 with
      | none => simp [hel] at h
      | some er =>
        obtain ⟨hlt1, hmono1⟩ := he rest1 er hel
        simp only [hel, Option.map_some', Option.some.injEq] at h
        subst h
        simp only
        refine ⟨by omega, ?_⟩
        intro g hg
        obtain ⟨g1, rfl⟩ : ∃ g1, g = g1 + 1 := ⟨g - 1, by omega⟩
        rw [readElements, hmono g1 (by omega)]
        simp only [hs]
        rw [hmono1 g1 (by omega)]
        rfl
    · rename_i rest1 hs
      rw [hs] at hsk
      simp only [List.length_cons] at hsk
      simp only [Option.some.injEq] at h
      subst h
      simp only
      refine ⟨by omega, ?_⟩
      intro g hg
      obtain ⟨g1, rfl⟩ : ∃ g1, g = g1 + 1 := ⟨g - 1, by omega⟩
      rw [readElements, hmono g1 (by omega)]
      simp only [hs]
    · simp at h

/-- One more unit of fuel for `readMembers`: what it reads uses some input, and
any fuel of at least the number of characters used reads the same. -/
theorem readMembers_step (depth f : Nat) (hv : ∀ (cs : List Char) (r : Value × List Char),
      readValue depth f cs = some r →
        r.2.length < cs.length ∧
          ∀ g, cs.length - r.2.length ≤ g → readValue depth g cs = some r)
    (hm : ∀ (cs : List Char) (r : List (String × Value) × List Char),
      readMembers depth f cs = some r →
        r.2.length < cs.length ∧
          ∀ g, cs.length - r.2.length ≤ g → readMembers depth g cs = some r)
    (cs : List Char) (r : List (String × Value) × List Char)
    (h : readMembers depth (f + 1) cs = some r) :
    r.2.length < cs.length ∧
      ∀ g, cs.length - r.2.length ≤ g → readMembers depth g cs = some r := by
  rw [readMembers.eq_def] at h
  simp only at h
  split at h
  · rename_i rest
    split at h
    · simp at h
    · rename_i k rest1 hk
      have hk1 := readString_length rest.length rest k rest1 (Nat.le_refl _) hk
      have hsk1 := skipSpace_length_le rest1
      split at h
      · rename_i rest2 hs1
        rw [hs1] at hsk1
        simp only [List.length_cons] at hsk1 ⊢
        split at h
        · simp at h
        · rename_i v rest3 hval
          obtain ⟨hlt, hmono⟩ := hv rest2 (v, rest3) hval
          simp only at hlt hmono
          have hsk3 := skipSpace_length_le rest3
          split at h
          · rename_i rest4 hs3
            rw [hs3] at hsk3
            simp only [List.length_cons] at hsk3
            have hsk4 := skipSpace_length_le rest4
            cases hmem : readMembers depth f (skipSpace rest4) with
            | none => simp [hmem] at h
            | some mr =>
              obtain ⟨hlt1, hmono1⟩ := hm (skipSpace rest4) mr hmem
              simp only [hmem, Option.map_some', Option.some.injEq] at h
              subst h
              simp only
              refine ⟨by omega, ?_⟩
              intro g hg
              obtain ⟨g1, rfl⟩ : ∃ g1, g = g1 + 1 := ⟨g - 1, by omega⟩
              rw [readMembers]
              simp only [hk, hs1]
              rw [hmono g1 (by omega)]
              simp only [hs3]
              rw [hmono1 g1 (by omega)]
              rfl
          · rename_i rest4 hs3
            rw [hs3] at hsk3
            simp only [List.length_cons] at hsk3
            simp only [Option.some.injEq] at h
            subst h
            simp only
            refine ⟨by omega, ?_⟩
            intro g hg
            obtain ⟨g1, rfl⟩ : ∃ g1, g = g1 + 1 := ⟨g - 1, by omega⟩
            rw [readMembers]
            simp only [hk, hs1]
            rw [hmono g1 (by omega)]
            simp only [hs3]
          · simp at h
      · simp at h
  · simp at h

/-- One more unit of fuel for `readValue`: what it reads uses some input, and any
fuel of at least the number of characters used reads the same. -/
theorem readValue_step (depth f : Nat)
    (hm : ∀ (cs : List Char) (r : List (String × Value) × List Char),
      readMembers (depth + 1) f cs = some r →
        r.2.length < cs.length ∧
          ∀ g, cs.length - r.2.length ≤ g → readMembers (depth + 1) g cs = some r)
    (he : ∀ (cs : List Char) (r : List Value × List Char),
      readElements (depth + 1) f cs = some r →
        r.2.length < cs.length ∧
          ∀ g, cs.length - r.2.length ≤ g → readElements (depth + 1) g cs = some r)
    (cs : List Char) (r : Value × List Char)
    (h : readValue depth (f + 1) cs = some r) :
    r.2.length < cs.length ∧
      ∀ g, cs.length - r.2.length ≤ g → readValue depth g cs = some r := by
  have hsk := skipSpace_length_le cs
  have atom : r.2.length < cs.length →
      (∀ g1, readValue depth (g1 + 1) cs = some r) →
      r.2.length < cs.length ∧
        ∀ g, cs.length - r.2.length ≤ g → readValue depth g cs = some r := by
    intro hlt hall
    refine ⟨hlt, ?_⟩
    intro g hg
    obtain ⟨g1, rfl⟩ : ∃ g1, g = g1 + 1 := ⟨g - 1, by omega⟩
    exact hall g1
  rw [readValue] at h
  split at h
  · simp at h
  · rename_i c rest hs
    rw [hs] at hsk
    simp only [List.length_cons] at hsk
    split at h
    · rename_i hc
      split at h
      · simp at h
      · rename_i hd
        have hsk1 := skipSpace_length_le rest
        split at h
        · rename_i rest1 hs1
          rw [hs1] at hsk1
          simp only [List.length_cons] at hsk1
          simp only [Option.some.injEq] at h
          subst h
          apply atom
          · simp only; omega
          · intro g1
            rw [readValue]
            simp only [hs]
            rw [if_pos hc, if_neg hd]
            simp only [hs1]
        · rename_i rest1 hno
          cases hmem : readMembers (depth + 1) f (skipSpace rest) with
          | none => simp [hmem] at h
          | some mr =>
            obtain ⟨hlt1, hmono1⟩ := hm (skipSpace rest) mr hmem
            simp only [hmem, Option.map_some', Option.some.injEq] at h
            subst h
            simp only
            refine ⟨by omega, ?_⟩
            intro g hg
            obtain ⟨g1, rfl⟩ : ∃ g1, g = g1 + 1 := ⟨g - 1, by omega⟩
            rw [readValue]
            simp only [hs]
            rw [if_pos hc, if_neg hd]
            rw [hmono1 g1 (by omega)]
            rfl
    · rename_i hc
      split at h
      · rename_i hb
        split at h
        · simp at h
        · rename_i hd
          have hsk1 := skipSpace_length_le rest
          split at h
          · rename_i rest1 hs1
            rw [hs1] at hsk1
            simp only [List.length_cons] at hsk1
            simp only [Option.some.injEq] at h
            subst h
            apply atom
            · simp only; omega
            · intro g1
              rw [readValue]
              simp only [hs]
              rw [if_neg hc, if_pos hb, if_neg hd]
              simp only [hs1]
          · rename_i rest1 hno
            cases hel : readElements (depth + 1) f (skipSpace rest) with
            | none => simp [hel] at h
            | some er =>
              obtain ⟨hlt1, hmono1⟩ := he (skipSpace rest) er hel
              simp only [hel, Option.map_some', Option.some.injEq] at h
              subst h
              simp only
              refine ⟨by omega, ?_⟩
              intro g hg
              obtain ⟨g1, rfl⟩ : ∃ g1, g = g1 + 1 := ⟨g - 1, by omega⟩
              rw [readValue]
              simp only [hs]
              rw [if_neg hc, if_pos hb, if_neg hd]
              rw [hmono1 g1 (by omega)]
              rfl
      · rename_i hb
        split at h
        · rename_i hq
          cases hstr : readString rest with
          | none => simp [hstr] at h
          | some sr =>
            have hl := readString_length rest.length rest sr.1 sr.2 (Nat.le_refl _) hstr
            simp only [hstr, Option.map_some', Option.some.injEq] at h
            subst h
            apply atom
            · simp only; omega
            · intro g1
              rw [readValue]
              simp only [hs]
              rw [if_neg hc, if_neg hb, if_pos hq]
              simp only [hstr, Option.map_some']
        · rename_i hq
          split at h
          · rename_i ht
            have hl := readLiteral_length _ _ _ _ _ (by decide) h
            simp only [List.length_cons] at hl
            apply atom
            · omega
            · intro g1
              rw [readValue]
              simp only [hs]
              rw [if_neg hc, if_neg hb, if_neg hq, if_pos ht]
              exact h
          · rename_i ht
            split at h
            · rename_i hf
              have hl := readLiteral_length _ _ _ _ _ (by decide) h
              simp only [List.length_cons] at hl
              apply atom
              · omega
              · intro g1
                rw [readValue]
                simp only [hs]
                rw [if_neg hc, if_neg hb, if_neg hq, if_neg ht, if_pos hf]
                exact h
            · rename_i hf
              split at h
              · rename_i hn
                have hl := readLiteral_length _ _ _ _ _ (by decide) h
                simp only [List.length_cons] at hl
                apply atom
                · omega
                · intro g1
                  rw [readValue]
                  simp only [hs]
                  rw [if_neg hc, if_neg hb, if_neg hq, if_neg ht, if_neg hf, if_pos hn]
                  exact h
              · rename_i hn
                cases hnum : readNumber (c :: rest) with
                | none => simp [hnum] at h
                | some nr =>
                  have hl := readNumber_length _ nr.1 nr.2 hnum
                  simp only [List.length_cons] at hl
                  simp only [hnum, Option.map_some', Option.some.injEq] at h
                  subst h
                  apply atom
                  · simp only; omega
                  · intro g1
                    rw [readValue]
                    simp only [hs]
                    rw [if_neg hc, if_neg hb, if_neg hq, if_neg ht, if_neg hf, if_neg hn]
                    simp only [hnum, Option.map_some']

/-- Whatever the three readers read with some fuel uses at least one character, and
they read the same with any fuel of at least the number of characters used. -/
theorem read_fuel : ∀ (f depth : Nat),
    (∀ (cs : List Char) (r : Value × List Char), readValue depth f cs = some r →
        r.2.length < cs.length ∧
          ∀ g, cs.length - r.2.length ≤ g → readValue depth g cs = some r) ∧
    (∀ (cs : List Char) (r : List (String × Value) × List Char),
      readMembers depth f cs = some r →
        r.2.length < cs.length ∧
          ∀ g, cs.length - r.2.length ≤ g → readMembers depth g cs = some r) ∧
    (∀ (cs : List Char) (r : List Value × List Char),
      readElements depth f cs = some r →
        r.2.length < cs.length ∧
          ∀ g, cs.length - r.2.length ≤ g → readElements depth g cs = some r) := by
  intro f
  induction f with
  | zero =>
    intro depth
    refine ⟨?_, ?_, ?_⟩
    · intro cs r h; simp [readValue] at h
    · intro cs r h; simp [readMembers] at h
    · intro cs r h; simp [readElements] at h
  | succ f ih =>
    intro depth
    refine ⟨?_, ?_, ?_⟩
    · exact readValue_step depth f (ih (depth + 1)).2.1 (ih (depth + 1)).2.2
    · exact readMembers_step depth f (ih depth).1 (ih depth).2.1
    · exact readElements_step depth f (ih depth).1 (ih depth).2.2

/-- Fuel above the length of the body is enough: a value that some amount of fuel
reads from the body is the value that `firstValue` reads. -/
theorem firstValue_complete (body : String) (f : Nat) (r : Value × List Char)
    (h : readValue 0 f body.data = some r) : firstValue body = some r := by
  unfold firstValue
  refine ((read_fuel f 0).1 body.data r h).2 _ ?_
  have : body.length = body.data.length := rfl
  omega

/-- The body has no well-formed first value for `firstValue` exactly when no amount
of fuel reads one. -/
theorem firstValue_none_iff (body : String) :
    firstValue body = none ↔ ∀ f, readValue 0 f body.data = none := by
  constructor
  · intro h f
    cases hr : readValue 0 f body.data with
    | none => rfl
    | some r => rw [firstValue_complete body f r hr] at h; simp at h
  · intro h
    exact h _

end Json

namespace Notes

/-! ## Properties of `Repository.List` -/

theorem queryNotes_log (db : DB) (s : Stmt) : (queryNotes db s).1.log = db.log ++ [s] := by
  unfold queryNotes DB.QueryContext DB.run
  cases h : db.fault s <;> simp [DB.store]

theorem clampLimit_Limit (p : ListParams) :
    (clampLimit p).Limit = if 1 ≤ p.Limit ∧ p.Limit ≤ 200 then p.Limit else 20 := by
  unfold clampLimit
  by_cases h : p.Limit ≤ 0 ∨ p.Limit > 200
  · rw [if_pos h, if_neg (by omega)]
  · rw [if_neg h, if_pos (by omega)]

theorem clampLimit_Query (p : ListParams) : (clampLimit p).Query = p.Query := by
  unfold clampLimit; split <;> rfl

theorem clampLimit_CursorCreatedAt (p : ListParams) :
    (clampLimit p).CursorCreatedAt = p.CursorCreatedAt := by
  unfold clampLimit; split <;> rfl

theorem clampLimit_CursorID (p : ListParams) : (clampLimit p).CursorID = p.CursorID := by
  unfold clampLimit; split <;> rfl

theorem List_eq_queryNotes (db : DB) (p : ListParams) :
    Repository.List db p = queryNotes db (listStmt p) := by
  unfold Repository.List listStmt
  simp only [clampLimit_Query, clampLimit_CursorCreatedAt, clampLimit_CursorID]
  split
  · rfl
  · cases p.CursorCreatedAt <;> cases p.CursorID <;> rfl

theorem listStmt_limit (p : ListParams) : (listStmt p).limit? = some (clampLimit p).Limit := by
  unfold listStmt
  split
  · rfl
  · cases p.CursorCreatedAt <;> cases p.CursorID <;> rfl

/-- C1: the limit that `Repository.List` sends to the store is `p.Limit` when
`1 ≤ p.Limit ≤ 200` and 20 otherwise, so it always lies in `[1, 200]`: the call
sends exactly one statement, and the `LIMIT` argument of that statement is this
value. -/
theorem list_limit_clamped (db : DB) (p : ListParams) :
    ∃ s lim, (Repository.List db p).1.log = db.log ++ [s] ∧ s.limit? = some lim ∧
      lim = (if 1 ≤ p.Limit ∧ p.Limit ≤ 200 then p.Limit else 20) ∧
      1 ≤ lim ∧ lim ≤ 200 := by
  refine ⟨listStmt p, (clampLimit p).Limit, ?_, listStmt_limit p, clampLimit_Limit p, ?_, ?_⟩
  · rw [List_eq_queryNotes, queryNotes_log]
  · rw [clampLimit_Limit]; split <;> omega
  · rw [clampLimit_Limit]; split <;> omega

/-- C2: with a non-empty `Query`, `Repository.List` runs the full-text search
statement with the arguments (`Query`, effective limit), whatever the cursor fields
are: two parameter sets that agree on `Query` and `Limit` send the same statement
and get the same result (and leave the same store) on the same store. -/
theorem list_search_ignores_cursor (db : DB) (p q : ListParams) (hp : p.Query ≠ "")
    (hQuery : q.Query = p.Query) (hLimit : q.Limit = p.Limit) :
    Repository.List db p = queryNotes db (.search p.Query (clampLimit p).Limit) ∧
    Repository.List db q = Repository.List db p ∧
    (Repository.List db p).1.log = db.log ++ [.search p.Query (clampLimit p).Limit] ∧
    (Repository.List db q).1.log = db.log ++ [.search p.Query (clampLimit p).Limit] := by
  have h1 : listStmt p = .search p.Query (clampLimit p).Limit := by
    unfold listStmt; rw [if_pos hp]
  have h2 : listStmt q = .search p.Query (clampLimit p).Limit := by
    unfold listStmt
    rw [if_pos (by rw [hQuery]; exact hp), hQuery, clampLimit_Limit, clampLimit_Limit, hLimit]
  refine ⟨?_, ?_, ?_, ?_⟩
  · rw [List_eq_queryNotes, h1]
  · rw [List_eq_queryNotes, List_eq_queryNotes, h1, h2]
  · rw [List_eq_queryNotes, h1, queryNotes_log]
  · rw [List_eq_queryNotes, h2, queryNotes_log]

/-- C3: every call of `Repository.List` sends exactly one statement, that of exactly
one of its three branches. With an empty `Query` it is the keyset statement, bound to
the cursor pair, exactly when both cursor fields are present, and the first-page
statement when one of them or both are absent. The keyset statement returns only
stored rows whose `(created_at, id)` pair is lexicographically strictly below the
cursor pair. -/
theorem list_branch_selection (db : DB) (p : ListParams) :
    (∃ s, Repository.List db p = queryNotes db s ∧
      (Repository.List db p).1.log = db.log ++ [s] ∧
      ((p.Query ≠ "" ∧ s = .search p.Query (clampLimit p).Limit) ∨
       (p.Query = "" ∧ ∃ t i, p.CursorCreatedAt = some t ∧ p.CursorID = some i ∧
          s = .keyset t i (clampLimit p).Limit) ∨
       (p.Query = "" ∧ (p.CursorCreatedAt = none ∨ p.CursorID = none) ∧
          s = .firstPage (clampLimit p).Limit))) ∧
    (∀ (tab : Tables) (t : Int) (i lim : Int) (n : Note),
      n ∈ (evalStmt db tab (.keyset t i lim)).2.1 →
        n ∈ tab.notes ∧ (n.CreatedAt < t ∨ (n.CreatedAt = t ∧ n.ID < i))) := by
  constructor
  · refine ⟨listStmt p, List_eq_queryNotes db p, ?_, ?_⟩
    · rw [List_eq_queryNotes, queryNotes_log]
    · unfold listStmt
      by_cases hq : p.Query = ""
      · rw [if_neg (by simp [hq])]
        right
        cases hc : p.CursorCreatedAt with
        | none => right; exact ⟨hq, Or.inl rfl, rfl⟩
        | some t =>
          cases hi : p.CursorID with
          | none => right; exact ⟨hq, Or.inr rfl, rfl⟩
          | some i => left; exact ⟨hq, t, i, rfl, rfl, rfl⟩
      · rw [if_pos hq]
        left
        exact ⟨hq, rfl⟩
  · intro tab t i lim n hn
    simp only [evalStmt, sqlLimit, orderDesc] at hn
    have h1 := List.mem_of_mem_take hn
    have h2 := (List.perm_insertionSort descOrder _).subset h1
    rw [List.mem_filter] at h2
    refine ⟨h2.1, ?_⟩
    have h3 := h2.2
    simp only [rowLess, Note.key, Bool.or_eq_true, Bool.and_eq_true, decide_eq_true_eq] at h3
    exact h3

theorem scanLoop_ok (db : DB) (h : ∀ n, db.scanFault n = none) (l out : List Note) :
    scanLoop out (l.map (scanRow db)) = .ok (out ++ l) := by
  induction l generalizing out with
  | nil => simp [scanLoop]
  | cons a l ih =>
    simp only [List.map_cons, scanRow, h a, scanLoop]
    rw [ih]; simp

theorem queryNotes_select (db : DB) (h : db.healthy) (s : Stmt)
    (hs : (evalStmt db ⟨db.notes, db.audit⟩ s).1 = ⟨db.notes, db.audit⟩)
    (hseq : ∀ t c, s ≠ .insertNote t c) :
    queryNotes db s =
      ({ db with log := db.log ++ [s] },
        (some (evalStmt db ⟨db.notes, db.audit⟩ s).2.1, none)) := by
  obtain ⟨hf, hsc, hit, hcl⟩ := h
  have hv : db.view false = ⟨db.notes, db.audit⟩ := by
    unfold DB.view; rfl
  unfold queryNotes DB.QueryContext DB.run
  simp only [hf s, hv, mkRows, hit s, hcl s, Option.map_none', scanNotes,
    scanLoop_ok db hsc, List.nil_append]
  congr 1
  unfold DB.store
  split
  · exact absurd rfl (hseq _ _)
  · simp only [hs]

theorem rowLess_iff (a b : Int × Int) :
    rowLess a b = true ↔ a.1 < b.1 ∨ (a.1 = b.1 ∧ a.2 < b.2) := by
  simp [rowLess]

theorem rowLess_false_iff (a b : Int × Int) :
    rowLess a b = false ↔ ¬ (a.1 < b.1 ∨ (a.1 = b.1 ∧ a.2 < b.2)) := by
  rw [← rowLess_iff]; simp

theorem distinctIDs_perm {l₁ l₂ : List Note} (h : l₁.Perm l₂) (hd : distinctIDs l₁) :
    distinctIDs l₂ :=
  (List.Perm.pairwise_iff (fun hab => Ne.symm hab) h).mp hd

theorem orderDesc_perm (l : List Note) : (orderDesc l).Perm l :=
  List.perm_insertionSort descOrder l

theorem orderDesc_strict (l : List Note) (hd : distinctIDs l) :
    (orderDesc l).Pairwise strictDesc := by
  have hs : (orderDesc l).Pairwise descOrder := List.sorted_insertionSort descOrder l
  have hd2 : distinctIDs (orderDesc l) := distinctIDs_perm (orderDesc_perm l).symm hd
  refine (hs.and hd2).imp ?_
  intro a b hab
  obtain ⟨h1, h2⟩ := hab
  unfold descOrder at h1
  unfold strictDesc
  rw [rowLess_false_iff] at h1
  rw [rowLess_iff]
  simp only [Note.key] at h1 ⊢
  omega

theorem orderDesc_filter (l : List Note) (hd : distinctIDs l) (f : Note → Bool) :
    orderDesc (l.filter f) = (orderDesc l).filter f := by
  have hsub : distinctIDs (l.filter f) := List.Pairwise.sublist (List.filter_sublist l) hd
  have h1 : (orderDesc (l.filter f)).Pairwise strictDesc := orderDesc_strict _ hsub
  have h2 : ((orderDesc l).filter f).Pairwise strictDesc :=
    List.Pairwise.sublist (List.filter_sublist _) (orderDesc_strict l hd)
  have hp : (orderDesc (l.filter f)).Perm ((orderDesc l).filter f) :=
    (orderDesc_perm _).trans ((orderDesc_perm l).symm.filter f)
  exact List.eq_of_perm_of_sorted hp h1 h2

/-- In a strictly decreasing list, the rows below the key of an element are the
rows after it. -/
theorem filter_below_cursor (pre post : List Note) (c : Note)
    (h : (pre ++ c :: post).Pairwise strictDesc) :
    (pre ++ c :: post).filter (fun n => rowLess n.key (c.CreatedAt, c.ID)) = post := by
  rw [List.pairwise_append] at h
  obtain ⟨_, hcp, hpre⟩ := h
  rw [List.pairwise_cons] at hcp
  obtain ⟨hc, _⟩ := hcp
  rw [List.filter_append, List.filter_cons]
  have e1 : pre.filter (fun n => rowLess n.key (c.CreatedAt, c.ID)) = [] := by
    rw [List.filter_eq_nil_iff]
    intro a ha
    have := hpre a ha c (List.mem_cons_self _ _)
    unfold strictDesc at this
    rw [rowLess_iff] at this
    rw [Bool.not_eq_true, rowLess_false_iff]
    simp only [Note.key] at this ⊢
    omega
  have e2 : rowLess c.key (c.CreatedAt, c.ID) = false := by
    rw [rowLess_false_iff]; simp [Note.key]
  have e3 : post.filter (fun n => rowLess n.key (c.CreatedAt, c.ID)) = post := by
    rw [List.filter_eq_self]
    intro a ha
    exact hc a ha
  rw [e1, e2, e3]; simp

theorem clampLimit_inRange (limit : Int) (h : 1 ≤ limit ∧ limit ≤ 200)
    (cursorAt cursorID : Option Int) (q : String) :
    clampLimit ⟨limit, cursorAt, cursorID, q⟩ = ⟨limit, cursorAt, cursorID, q⟩ := by
  unfold clampLimit
  rw [if_neg]
  simp only [not_or]
  omega

theorem List_firstPage (db : DB) (hh : db.healthy) (limit : Int)
    (hl : 1 ≤ limit ∧ limit ≤ 200) :
    Repository.List db ⟨limit, none, none, ""⟩ =
      ({ db with log := db.log ++ [.firstPage limit] },
        (some ((orderDesc db.notes).take limit.toNat), none)) := by
  rw [List_eq_queryNotes]
  have hs : listStmt ⟨limit, none, none, ""⟩ = .firstPage limit := by
    unfold listStmt
    rw [clampLimit_inRange limit hl]
    rfl
  rw [hs, queryNotes_select db hh (.firstPage limit) rfl (fun _ _ h => Stmt.noConfusion h)]
  rfl

theorem List_keyset (db : DB) (hh : db.healthy) (hd : distinctIDs db.notes) (limit : Int)
    (hl : 1 ≤ limit ∧ limit ≤ 200) (pre post : List Note) (c : Note)
    (hS : orderDesc db.notes = pre ++ c :: post) :
    Repository.List db ⟨limit, some c.CreatedAt, some c.ID, ""⟩ =
      ({ db with log := db.log ++ [.keyset c.CreatedAt c.ID limit] },
        (some (post.take limit.toNat), none)) := by
  rw [List_eq_queryNotes]
  have hs : listStmt ⟨limit, some c.CreatedAt, some c.ID, ""⟩ =
      .keyset c.CreatedAt c.ID limit := by
    unfold listStmt
    rw [clampLimit_inRange limit hl]
    rfl
  rw [hs, queryNotes_select db hh (.keyset c.CreatedAt c.ID limit) rfl
    (fun _ _ h => Stmt.noConfusion h)]
  have hrows : (evalStmt db ⟨db.notes, db.audit⟩ (.keyset c.CreatedAt c.ID limit)).2.1 =
      post.take limit.toNat := by
    simp only [evalStmt, sqlLimit]
    rw [orderDesc_filter db.notes hd, hS, filter_below_cursor pre post c]
    rw [← hS]
    exact orderDesc_strict db.notes hd
  rw [hrows]

theorem listAll_from (limit : Int) (hl : 1 ≤ limit ∧ limit ≤ 200) :
    ∀ (fuel : Nat) (post : List Note) (db : DB) (pre : List Note) (c : Note),
      db.healthy → distinctIDs db.notes → orderDesc db.notes = pre ++ c :: post →
      post.length < fuel →
      ∃ pages, listAll limit fuel db (some c.CreatedAt) (some c.ID) = some pages ∧
        pages.flatten = post ∧ ∀ pg ∈ pages, pg ≠ [] ∧ (pg.length : Int) ≤ limit := by
  intro fuel
  induction fuel with
  | zero => intro post db pre c _ _ _ hlen; omega
  | succ fuel ih =>
    intro post db pre c hh hd hS hlen
    unfold listAll
    rw [List_keyset db hh hd limit hl pre post c hS]
    simp only
    cases hlast : (post.take limit.toNat).getLast? with
    | none =>
      have hnil : post.take limit.toNat = [] := List.getLast?_eq_none_iff.mp hlast
      have hpost : post = [] := by
        cases post with
        | nil => rfl
        | cons a t =>
          have : 0 < limit.toNat := by omega
          obtain ⟨k, hk⟩ := Nat.exists_eq_succ_of_ne_zero (Nat.pos_iff_ne_zero.mp this)
          rw [hk, List.take_succ_cons] at hnil
          exact absurd hnil (List.cons_ne_nil _ _)
      exact ⟨[], rfl, by simp [hpost], by simp⟩
    | some last =>
      have hne : post.take limit.toNat ≠ [] := by
        intro h0; rw [h0] at hlast; simp at hlast
      have hsplit : post.take limit.toNat =
          (post.take limit.toNat).dropLast ++ [last] := by
        have := List.dropLast_append_getLast? last hlast
        exact this.symm
      have hS2 : orderDesc db.notes =
          (pre ++ c :: (post.take limit.toNat).dropLast) ++ last :: post.drop limit.toNat := by
        rw [hS]
        conv_lhs => rw [← List.take_append_drop limit.toNat post, hsplit]
        simp
      have hlen2 : (post.drop limit.toNat).length < fuel := by
        have h1 : 0 < (post.take limit.toNat).length := List.length_pos.mpr hne
        rw [List.length_take] at h1
        rw [List.length_drop]
        omega
      obtain ⟨pages, hp1, hp2, hp3⟩ :=
        ih (post.drop limit.toNat) { db with log := db.log ++ [.keyset c.CreatedAt c.ID limit] }
          (pre ++ c :: (post.take limit.toNat).dropLast) last hh hd hS2 hlen2
      refine ⟨post.take limit.toNat :: pages, ?_, ?_, ?_⟩
      · simp only [hp1, Option.map_some']
      · rw [List.flatten_cons, hp2, List.take_append_drop]
      · intro pg hpg
        rw [List.mem_cons] at hpg
        rcases hpg with h | h
        · subst h
          refine ⟨hne, ?_⟩
          have := List.length_take_le limit.toNat post
          omega
        · exact hp3 pg h

/-- C4: pagination completeness. On a store that holds notes with pairwise distinct
ids and answers without failure, for every limit in `[1, 200]`, listing first
without cursor and then with the `(created_at, id)` of the last item of the previous
page until a page is empty terminates (any fuel above the number of notes suffices),
and the concatenation of the pages is the whole table in the order
`created_at DESC, id DESC`: strictly decreasing, every note exactly once; every page
is non-empty and has at most `limit` items. -/
theorem pagination_complete (db : DB) (limit : Int) (fuel : Nat)
    (hl : 1 ≤ limit ∧ limit ≤ 200) (hh : db.healthy) (hd : distinctIDs db.notes)
    (hfuel : db.notes.length < fuel) :
    ∃ pages, listAll limit fuel db none none = some pages ∧
      pages.flatten = orderDesc db.notes ∧
      pages.flatten.Pairwise strictDesc ∧
      pages.flatten.Perm db.notes ∧
      pages.flatten.Nodup ∧
      (∀ pg ∈ pages, pg ≠ [] ∧ (pg.length : Int) ≤ limit) ∧
      (db.notes.length ≤ 200 →
        (Repository.List db ⟨200, none, none, ""⟩).2 = (some pages.flatten, none)) := by
  have hperm := orderDesc_perm db.notes
  have hstrict := orderDesc_strict db.notes hd
  have hnodup : (orderDesc db.notes).Nodup := by
    refine hstrict.imp ?_
    intro a b hab heq
    subst heq
    unfold strictDesc at hab
    rw [rowLess_iff] at hab
    omega
  suffices h : ∃ pages, listAll limit fuel db none none = some pages ∧
      pages.flatten = orderDesc db.notes ∧
      ∀ pg ∈ pages, pg ≠ [] ∧ (pg.length : Int) ≤ limit by
    obtain ⟨pages, h1, h2, h3⟩ := h
    refine ⟨pages, h1, h2, h2 ▸ hstrict, h2 ▸ hperm, h2 ▸ hnodup, h3, ?_⟩
    intro hlen
    rw [List_firstPage db hh 200 (by decide), h2]
    have hle : (orderDesc db.notes).length ≤ (200 : Int).toNat := by
      rw [hperm.length_eq]; exact hlen
    simp only [List.take_of_length_le hle]
  obtain ⟨k, hk⟩ : ∃ k, fuel = k + 1 := ⟨fuel - 1, by omega⟩
  subst hk
  unfold listAll
  rw [List_firstPage db hh limit hl]
  simp only
  cases hlast : ((orderDesc db.notes).take limit.toNat).getLast? with
  | none =>
    have hnil : (orderDesc db.notes).take limit.toNat = [] :=
      List.getLast?_eq_none_iff.mp hlast
    have hS : orderDesc db.notes = [] := by
      cases hS : orderDesc db.notes with
      | nil => rfl
      | cons a t =>
        rw [hS] at hnil
        have : 0 < limit.toNat := by omega
        obtain ⟨j, hj⟩ := Nat.exists_eq_succ_of_ne_zero (Nat.pos_iff_ne_zero.mp this)
        rw [hj, List.take_succ_cons] at hnil
        exact absurd hnil (List.cons_ne_nil _ _)
    exact ⟨[], rfl, by simp [hS], by simp⟩
  | some last =>
    have hne : (orderDesc db.notes).take limit.toNat ≠ [] := by
      intro h0; rw [h0] at hlast; simp at hlast
    have hsplit : (orderDesc db.notes).take limit.toNat =
        ((orderDesc db.notes).take limit.toNat).dropLast ++ [last] :=
      (List.dropLast_append_getLast? last hlast).symm
    have hS2 : orderDesc db.notes =
        ((orderDesc db.notes).take limit.toNat).dropLast ++
          last :: (orderDesc db.notes).drop limit.toNat := by
      conv_lhs => rw [← List.take_append_drop limit.toNat (orderDesc db.notes), hsplit]
      simp
    have hlen2 : ((orderDesc db.notes).drop limit.toNat).length < k := by
      have h1 : 0 < ((orderDesc db.notes).take limit.toNat).length := List.length_pos.mpr hne
      rw [List.length_take] at h1
      rw [List.length_drop]
      have := hperm.length_eq
      omega
    obtain ⟨pages, hp1, hp2, hp3⟩ :=
      listAll_from limit hl k ((orderDesc db.notes).drop limit.toNat)
        { db with log := db.log ++ [.firstPage limit] }
        (((orderDesc db.notes).take limit.toNat).dropLast) last hh hd hS2 hlen2
    refine ⟨(orderDesc db.notes).take limit.toNat :: pages, ?_, ?_, ?_⟩
    · simp only [hp1, Option.map_some']
    · rw [List.flatten_cons, hp2, List.take_append_drop]
    · intro pg hpg
      rw [List.mem_cons] at hpg
      rcases hpg with h | h
      · subst h
        refine ⟨hne, ?_⟩
        have := List.length_take_le limit.toNat (orderDesc db.notes)
        omega
      · exact hp3 pg h

theorem sampleDB_healthy : sampleDB.healthy :=
  ⟨fun _ => rfl, fun _ => rfl, fun _ => rfl, fun _ => rfl⟩

/-- C4 at the notes A, B, C with limit 2: the pages are `[C, B]` and `[A]`. -/
theorem pagination_complete_witness :
    ((1 : Int) ≤ 2 ∧ (2 : Int) ≤ 200) ∧ distinctIDs sampleDB.notes ∧
    sampleDB.notes.length < 4 ∧
    listAll 2 4 sampleDB none none = some [[noteC, noteB], [noteA]] ∧
    ∃ pages, listAll 2 4 sampleDB none none = some pages ∧
      pages.flatten = orderDesc sampleDB.notes ∧
      pages.flatten.Pairwise strictDesc ∧
      pages.flatten.Perm sampleDB.notes ∧
      pages.flatten.Nodup ∧
      (∀ pg ∈ pages, pg ≠ [] ∧ (pg.length : Int) ≤ 2) ∧
      (sampleDB.notes.length ≤ 200 →
        (Repository.List sampleDB ⟨200, none, none, ""⟩).2 = (some pages.flatten, none)) :=
  ⟨by decide, by unfold distinctIDs; decide, by decide, by decide,
    pagination_complete sampleDB 2 4 (by decide) sampleDB_healthy
      (by unfold distinctIDs; decide) (by decide)⟩

/-- C2 at the sample store: a search for "beta" with and without cursor fields. -/
theorem list_search_ignores_cursor_witness :
    (ListParams.mk 2 none none "beta").Query ≠ "" ∧
    (Repository.List sampleDB ⟨2, none, none, "beta"⟩).2 = (some [noteB], none) ∧
    Repository.List sampleDB ⟨2, some 20, some 2, "beta"⟩ =
      Repository.List sampleDB ⟨2, none, none, "beta"⟩ :=
  ⟨by decide, by decide,
    (list_search_ignores_cursor sampleDB ⟨2, none, none, "beta"⟩ ⟨2, some 20, some 2, "beta"⟩
      (by decide) rfl rfl).2.1⟩

/-- C3 on the store holding A, B, C: with the cursor of B and no query the keyset
statement is sent, and A, a row it returns, lies below the cursor. -/
theorem list_branch_selection_witness :
    (Repository.List sampleDB ⟨2, some 20, some 2, ""⟩).1.log = [.keyset 20 2 2] ∧
    (Repository.List sampleDB ⟨2, some 20, none, ""⟩).1.log = [.firstPage 2] ∧
    (Repository.List sampleDB ⟨2, some 20, some 2, ""⟩).2 = (some [noteA], none) ∧
    (noteA ∈ sampleDB.notes ∧
      (noteA.CreatedAt < 20 ∨ (noteA.CreatedAt = 20 ∧ noteA.ID < 2))) :=
  ⟨by decide, by decide, by decide,
    (list_branch_selection sampleDB ⟨2, some 20, some 2, ""⟩).2
      ⟨sampleDB.notes, sampleDB.audit⟩ 20 2 2 noteA (by decide)⟩

/-! ## Properties of `BatchGet`, `Delete`, `Get`, `Update` and `Create` -/

/-- C5: for an empty or nil id list, `Repository.BatchGet` returns an empty non-nil
sequence and no error, and sends nothing to the store: the store, its log included,
is left as it was. -/
theorem batchGet_empty (db : DB) (ids : Slice Int) (h : Slice.len ids = 0) :
    Repository.BatchGet db ids = (db, (some [], none)) ∧
    (Repository.BatchGet db ids).2.1 ≠ none ∧
    Slice.len (Repository.BatchGet db ids).2.1 = 0 ∧
    (Repository.BatchGet db ids).1.log = db.log := by
  unfold Repository.BatchGet
  rw [if_pos h]
  exact ⟨rfl, by simp, rfl, rfl⟩

/-- C5 at the nil and at the empty id list. -/
theorem batchGet_empty_witness :
    Slice.len (none : Slice Int) = 0 ∧ Slice.len (some [] : Slice Int) = 0 ∧
    Repository.BatchGet sampleDB none = (sampleDB, (some [], none)) ∧
    Repository.BatchGet sampleDB (some []) = (sampleDB, (some [], none)) :=
  ⟨rfl, rfl, (batchGet_empty sampleDB none rfl).1, (batchGet_empty sampleDB (some []) rfl).1⟩

theorem view_false (db : DB) : db.view false = ⟨db.notes, db.audit⟩ := by
  unfold DB.view; rfl

theorem update_rows (db : DB) (id : Int) (title content : String) :
    (evalStmt db ⟨db.notes, db.audit⟩ (.update title content id)).2.1 =
      (db.matching id).map (fun n => n.updated title content) := by
  simp only [evalStmt, DB.matching]
  induction db.notes with
  | nil => rfl
  | cons a l ih =>
    by_cases h : a.ID = id
    · simp [List.filter_cons, h, Note.updated, ih]
    · simp [List.filter_cons, h, ih]

theorem update_notes_of_no_match (db : DB) (id : Int) (title content : String)
    (h : db.matching id = []) :
    (evalStmt db ⟨db.notes, db.audit⟩ (.update title content id)).1 =
      ⟨db.notes, db.audit⟩ := by
  simp only [evalStmt]
  congr 1
  unfold DB.matching at h
  rw [List.filter_eq_nil_iff] at h
  conv_rhs => rw [← List.map_id db.notes]
  apply List.map_congr_left
  intro a ha
  have := h a ha
  simp only [decide_eq_true_eq] at this
  simp [this]

theorem get_rows (db : DB) (id : Int) :
    evalStmt db ⟨db.notes, db.audit⟩ (.get id) = (⟨db.notes, db.audit⟩, db.matching id, 0) :=
  rfl

/-- The errors that a query followed by `Scan` reports are `sql.ErrNoRows` and the
failures of the store. -/
theorem QueryRowScan_err (db : DB) (inTx : Bool) (s : Stmt) (e : Err)
    (h : (db.QueryRowScan inTx s).2.2 = some e) : e = .ErrNoRows ∨ ∃ msg, e = .fault msg := by
  unfold DB.QueryRowScan DB.QueryContext DB.run at h
  cases hf : db.fault s with
  | some m =>
    simp only [hf] at h
    right; exact ⟨m, by simpa using h.symm⟩
  | none =>
    simp only [hf] at h
    generalize (evalStmt db (db.view inTx) s).2.1 = rows at h
    unfold mkRows scanRow at h
    cases hit : db.iterFault s with
    | none =>
      simp only [hit] at h
      cases rows with
      | nil =>
        cases hc : db.closeFault s with
        | none => left; simpa [hc] using h.symm
        | some m => right; exact ⟨m, by simpa [hc] using h.symm⟩
      | cons a t =>
        simp only [List.map_cons] at h
        cases hsc : db.scanFault a with
        | none =>
          simp only [hsc] at h
          cases hc : db.closeFault s with
          | none => simp [hc] at h
          | some m => right; exact ⟨m, by simpa [hc] using h.symm⟩
        | some km =>
          simp only [hsc] at h
          right; exact ⟨km.2, by simpa using h.symm⟩
    | some km =>
      obtain ⟨k, m⟩ := km
      simp only [hit] at h
      cases hr : rows.take k with
      | nil =>
        simp only [hr, List.map_nil] at h
        right; exact ⟨m, by simpa using h.symm⟩
      | cons a t =>
        simp only [hr, List.map_cons] at h
        cases hsc : db.scanFault a with
        | none =>
          simp only [hsc] at h
          cases hc : db.closeFault s with
          | none => simp [hc] at h
          | some m => right; exact ⟨m, by simpa [hc] using h.symm⟩
        | some km =>
          simp only [hsc] at h
          right; exact ⟨km.2, by simpa using h.symm⟩

theorem errorsIs_fault (msg : String) : errorsIs (some (.fault msg)) .ErrNoRows = false := by
  simp [errorsIs, Err.is]

theorem errorsIs_of_scan (db : DB) (inTx : Bool) (s : Stmt) (e : Err)
    (h : (db.QueryRowScan inTx s).2.2 = some e) (hne : e ≠ .ErrNoRows) :
    errorsIs (some e) .ErrNoRows = false := by
  rcases QueryRowScan_err db inTx s e h with h1 | ⟨m, h1⟩
  · exact absurd h1 hne
  · rw [h1]; exact errorsIs_fault m

theorem Get_eq (db : DB) (id : Int) :
    Repository.Get db id =
      if errorsIs (db.QueryRowScan false (.get id)).2.2 .ErrNoRows then
        ((db.QueryRowScan false (.get id)).1, (Note.zero, some .ErrNoRows))
      else db.QueryRowScan false (.get id) := by
  unfold Repository.Get
  rfl

theorem Update_eq (db : DB) (id : Int) (title content : String) :
    Repository.Update db id title content =
      if errorsIs (db.QueryRowScan false (.update title content id)).2.2 .ErrNoRows then
        ((db.QueryRowScan false (.update title content id)).1, (Note.zero, some .ErrNoRows))
      else db.QueryRowScan false (.update title content id) := by
  unfold Repository.Update
  rfl

theorem QueryRowScan_fault (db : DB) (s : Stmt) (msg : String) (h : db.fault s = some msg) :
    db.QueryRowScan false s =
      ({ db with log := db.log ++ [s] }, (Note.zero, some (.fault msg))) := by
  simp [DB.QueryRowScan, DB.QueryContext, DB.run, h]

theorem QueryRowScan_rows (db : DB) (s : Stmt) (hf : db.fault s = none)
    (hit : db.iterFault s = none) :
    (db.QueryRowScan false s).2 =
      match (evalStmt db ⟨db.notes, db.audit⟩ s).2.1 with
      | [] =>
          match db.closeFault s with
          | some msg => (Note.zero, some (.fault msg))
          | none => (Note.zero, some .ErrNoRows)
      | row :: _ =>
          match db.scanFault row with
          | some (k, msg) => (scanUpTo k row, some (.fault msg))
          | none => (row, (db.closeFault s).map Err.fault) := by
  simp only [DB.QueryRowScan, DB.QueryContext, DB.run, hf, view_false, mkRows, hit]
  cases (evalStmt db ⟨db.notes, db.audit⟩ s).2.1 with
  | nil =>
    simp only [List.map_nil]
    cases db.closeFault s <;> rfl
  | cons row rest =>
    simp only [List.map_cons, scanRow]
    cases db.scanFault row with
    | none => rfl
    | some km => rfl

theorem QueryRowScan_tables (db : DB) (s : Stmt) :
    (db.QueryRowScan false s).1.notes = db.notes ∧ (db.QueryRowScan false s).1.audit = db.audit ∨
    (db.fault s = none ∧
      (db.QueryRowScan false s).1.notes = (evalStmt db ⟨db.notes, db.audit⟩ s).1.notes ∧
      (db.QueryRowScan false s).1.audit = (evalStmt db ⟨db.notes, db.audit⟩ s).1.audit) := by
  cases hf : db.fault s with
  | some m => left; rw [QueryRowScan_fault db s m hf]; exact ⟨rfl, rfl⟩
  | none =>
    right
    refine ⟨rfl, ?_⟩
    simp only [DB.QueryRowScan, DB.QueryContext, DB.run, hf, view_false, DB.store]
    split <;> (try split) <;> (try split) <;> exact ⟨rfl, rfl⟩

/-- C7: `Repository.Get` and `Repository.Update` return the zero `Note` with
`sql.ErrNoRows` when the statement executes without failure and no row has the id.
Every other failure is returned unchanged: an error of the query or the scan that is
not `sql.ErrNoRows` for `errors.Is`, a failure of the statement in particular, and
the error of closing the result when no row has the id. An error that is
`sql.ErrNoRows` for `errors.Is` is returned as `sql.ErrNoRows` with the zero `Note`.
When nothing fails they return the scanned row (for `Update`, the row with its new
title and content) with a `nil` error. `Update` on an id that no row has leaves both
tables as they were. -/
theorem get_update_outcome (db : DB) (id : Int) (title content : String) :
    (db.fault (.get id) = none → db.iterFault (.get id) = none →
      db.closeFault (.get id) = none → db.matching id = [] →
      (Repository.Get db id).2 = (Note.zero, some .ErrNoRows)) ∧
    (db.fault (.update title content id) = none →
      db.iterFault (.update title content id) = none →
      db.closeFault (.update title content id) = none → db.matching id = [] →
      (Repository.Update db id title content).2 = (Note.zero, some .ErrNoRows)) ∧
    (∀ n e, (db.QueryRowScan false (.get id)).2 = (n, some e) →
      errorsIs (some e) .ErrNoRows = false → (Repository.Get db id).2 = (n, some e)) ∧
    (∀ n e, (db.QueryRowScan false (.update title content id)).2 = (n, some e) →
      errorsIs (some e) .ErrNoRows = false →
      (Repository.Update db id title content).2 = (n, some e)) ∧
    (∀ n e, (db.QueryRowScan false (.get id)).2 = (n, some e) →
      errorsIs (some e) .ErrNoRows = true →
      (Repository.Get db id).2 = (Note.zero, some .ErrNoRows)) ∧
    (∀ n e, (db.QueryRowScan false (.update title content id)).2 = (n, some e) →
      errorsIs (some e) .ErrNoRows = true →
      (Repository.Update db id title content).2 = (Note.zero, some .ErrNoRows)) ∧
    (∀ msg, db.fault (.get id) = some msg →
      (Repository.Get db id).2 = (Note.zero, some (.fault msg))) ∧
    (∀ msg, db.fault (.update title content id) = some msg →
      (Repository.Update db id title content).2 = (Note.zero, some (.fault msg))) ∧
    (∀ msg, db.fault (.get id) = none → db.iterFault (.get id) = none →
      db.matching id = [] → db.closeFault (.get id) = some msg →
      (Repository.Get db id).2 = (Note.zero, some (.fault msg))) ∧
    (∀ msg, db.fault (.update title content id) = none →
      db.iterFault (.update title content id) = none →
      db.matching id = [] → db.closeFault (.update title content id) = some msg →
      (Repository.Update db id title content).2 = (Note.zero, some (.fault msg))) ∧
    (∀ row rest, db.fault (.get id) = none → db.iterFault (.get id) = none →
      db.closeFault (.get id) = none → db.matching id = row :: rest →
      db.scanFault row = none → (Repository.Get db id).2 = (row, none)) ∧
    (∀ row rest, db.fault (.update title content id) = none →
      db.iterFault (.update title content id) = none →
      db.closeFault (.update title content id) = none → db.matching id = row :: rest →
      db.scanFault (row.updated title content) = none →
      (Repository.Update db id title content).2 = (row.updated title content, none)) ∧
    (db.matching id = [] →
      (Repository.Update db id title content).1.notes = db.notes ∧
      (Repository.Update db id title content).1.audit = db.audit) := by
  refine ⟨?_, ?_, ?_, ?_, ?_, ?_, ?_, ?_, ?_, ?_, ?_, ?_, ?_⟩
  · intro hf hit hc hm
    have h := QueryRowScan_rows db (.get id) hf hit
    rw [get_rows, hm] at h
    simp only [hc] at h
    rw [Get_eq, h]
    simp [errorsIs, Err.is]
  · intro hf hit hc hm
    have h := QueryRowScan_rows db (.update title content id) hf hit
    rw [update_rows, hm] at h
    simp only [List.map_nil, hc] at h
    rw [Update_eq, h]
    simp [errorsIs, Err.is]
  · intro n e h he
    have h2 : (db.QueryRowScan false (.get id)).2.2 = some e := by rw [h]
    rw [Get_eq, h2, he]
    simpa using h
  · intro n e h he
    have h2 : (db.QueryRowScan false (.update title content id)).2.2 = some e := by rw [h]
    rw [Update_eq, h2, he]
    simpa using h
  · intro n e h he
    have h2 : (db.QueryRowScan false (.get id)).2.2 = some e := by rw [h]
    rw [Get_eq, h2, he]
    simp
  · intro n e h he
    have h2 : (db.QueryRowScan false (.update title content id)).2.2 = some e := by rw [h]
    rw [Update_eq, h2, he]
    simp
  · intro msg hf
    rw [Get_eq, QueryRowScan_fault db _ msg hf]
    simp [errorsIs_fault]
  · intro msg hf
    rw [Update_eq, QueryRowScan_fault db _ msg hf]
    simp [errorsIs_fault]
  · intro msg hf hit hm hc
    have h := QueryRowScan_rows db (.get id) hf hit
    rw [get_rows, hm] at h
    simp only [hc] at h
    rw [Get_eq, h]
    simp only [errorsIs_fault]
    exact h
  · intro msg hf hit hm hc
    have h := QueryRowScan_rows db (.update title content id) hf hit
    rw [update_rows, hm] at h
    simp only [List.map_nil, hc] at h
    rw [Update_eq, h]
    simp only [errorsIs_fault]
    exact h
  · intro row rest hf hit hc hm hsc
    have h := QueryRowScan_rows db (.get id) hf hit
    rw [get_rows, hm] at h
    simp only [hsc, hc, Option.map_none'] at h
    rw [Get_eq, h]
    simp only [errorsIs]
    exact h
  · intro row rest hf hit hc hm hsc
    have h := QueryRowScan_rows db (.update title content id) hf hit
    rw [update_rows, hm] at h
    simp only [List.map_cons, hsc, hc, Option.map_none'] at h
    rw [Update_eq, h]
    simp only [errorsIs]
    exact h
  · intro hm
    have h1 : (Repository.Update db id title content).1 =
        (db.QueryRowScan false (.update title content id)).1 := by
      rw [Update_eq]; split <;> rfl
    rw [h1]
    rcases QueryRowScan_tables db (.update title content id) with h | ⟨_, h2, h3⟩
    · exact h
    · rw [h2, h3, update_notes_of_no_match db id title content hm]
      exact ⟨rfl, rfl⟩

/-- C7 on the store holding A, B, C: the missing note 9, a failure of the store, a
failure of closing the result for the missing note 9, and note 2. -/
theorem get_update_outcome_witness :
    (Repository.Get sampleDB 9).2 = (Note.zero, some .ErrNoRows) ∧
    (Repository.Update sampleDB 9 "t" "c").2 = (Note.zero, some .ErrNoRows) ∧
    (Repository.Get downDB 2).2 = (Note.zero, some (.fault "down")) ∧
    (Repository.Get closeDB 9).2 = (Note.zero, some (.fault "close boom")) ∧
    (Repository.Update closeDB 9 "t" "c").2 = (Note.zero, some (.fault "close boom")) ∧
    (Repository.Get sampleDB 2).2 = (noteB, none) ∧
    (Repository.Update sampleDB 2 "t" "c").2 = (noteB.updated "t" "c", none) ∧
    (Repository.Update sampleDB 9 "t" "c").1.notes = sampleDB.notes :=
  ⟨(get_update_outcome sampleDB 9 "t" "c").1 rfl rfl rfl (by decide),
    (get_update_outcome sampleDB 9 "t" "c").2.1 rfl rfl rfl (by decide),
    (get_update_outcome downDB 2 "t" "c").2.2.2.2.2.2.1 "down" rfl,
    (get_update_outcome closeDB 9 "t" "c").2.2.2.2.2.2.2.2.1 "close boom" rfl rfl
      (by decide) rfl,
    (get_update_outcome closeDB 9 "t" "c").2.2.2.2.2.2.2.2.2.1 "close boom" rfl rfl
      (by decide) rfl,
    (get_update_outcome sampleDB 2 "t" "c").2.2.2.2.2.2.2.2.2.2.1 noteB [] rfl rfl rfl
      (by decide) rfl,
    (get_update_outcome sampleDB 2 "t" "c").2.2.2.2.2.2.2.2.2.2.2.1 noteB [] rfl rfl rfl
      (by decide) rfl,
    ((get_update_outcome sampleDB 9 "t" "c").2.2.2.2.2.2.2.2.2.2.2.2 (by decide)).1⟩

/-- Evaluation on the store holding A, B, C: reading, updating and deleting note 2
and the missing note 9. -/
theorem get_update_sample :
    (Repository.Get sampleDB 2).2 = (noteB, none) ∧
    (Repository.Get sampleDB 9).2 = (Note.zero, some .ErrNoRows) ∧
    (Repository.Update sampleDB 2 "t" "c").2 = (⟨2, "t", "c", 20⟩, none) ∧
    (Repository.Update sampleDB 2 "t" "c").1.notes = [noteA, ⟨2, "t", "c", 20⟩, noteC] ∧
    (Repository.Update sampleDB 9 "t" "c").2 = (Note.zero, some .ErrNoRows) ∧
    (Repository.Update sampleDB 9 "t" "c").1.notes = [noteA, noteB, noteC] ∧
    (Repository.Delete sampleDB 2).2 = none ∧
    (Repository.Delete sampleDB 2).1.notes = [noteA, noteC] ∧
    (Repository.Delete sampleDB 9).2 = some .ErrNoRows := by
  decide

theorem insert_scan (db : DB) (title content : String) (hb : db.fault .begin = none) :
    (db.BeginTx.1.QueryRowScan true (.insertNote title content)).2.2 = none →
    (db.BeginTx.1.QueryRowScan true (.insertNote title content)) =
      ({ db with log := db.log ++ [.begin, .insertNote title content],
                 pending := some ⟨db.notes ++ [insertedNote db title content], db.audit⟩,
                 nextID := db.nextID + 1 },
        (insertedNote db title content, none)) := by
  simp only [DB.BeginTx, hb, DB.QueryRowScan, DB.QueryContext, DB.run]
  cases hf : db.fault (.insertNote title content) with
  | some m => simp
  | none =>
    simp only [DB.view, evalStmt, mkRows, DB.store, insertedNote, List.append_assoc,
      List.singleton_append]
    cases hit : db.iterFault (.insertNote title content) with
    | none =>
      simp only [List.map_cons, List.map_nil, scanRow]
      cases hsc : db.scanFault ⟨db.nextID, title, content, db.now⟩ with
      | none =>
        simp only
        intro h; rw [h]
      | some km => simp
    | some km =>
      obtain ⟨k, m⟩ := km
      cases k with
      | zero => simp
      | succ k =>
        simp only [List.take_succ_cons, List.take_nil, List.map_cons, List.map_nil, scanRow]
        cases hsc : db.scanFault ⟨db.nextID, title, content, db.now⟩ with
        | none =>
          simp only
          intro h; rw [h]
        | some km => simp

theorem Rollback_tables (db : DB) :
    db.Rollback.1.notes = db.notes ∧ db.Rollback.1.audit = db.audit := by
  unfold DB.Rollback
  cases db.pending with
  | none => exact ⟨rfl, rfl⟩
  | some t =>
    simp only
    cases db.fault .rollback <;> exact ⟨rfl, rfl⟩

theorem run_inTx_tables (db : DB) (s : Stmt) (t : Tables) (hp : db.pending = some t) :
    (db.run true s).1.notes = db.notes ∧ (db.run true s).1.audit = db.audit := by
  unfold DB.run
  cases db.fault s with
  | some m => exact ⟨rfl, rfl⟩
  | none =>
    simp [DB.store, hp]

theorem QueryRowScan_inTx_tables (db : DB) (s : Stmt) (t : Tables) (hp : db.pending = some t) :
    (db.QueryRowScan true s).1.notes = db.notes ∧
    (db.QueryRowScan true s).1.audit = db.audit := by
  have h := run_inTx_tables db s t hp
  unfold DB.QueryRowScan DB.QueryContext
  generalize db.run true s = r at h
  obtain ⟨db1, res⟩ := r
  cases res with
  | error e => exact h
  | ok v =>
    simp only
    split
    · split <;> exact h
    · exact h
    · exact h

theorem BeginTx_ok (db : DB) (hb : db.fault .begin = none) :
    db.BeginTx = ({ db with log := db.log ++ [.begin],
                            pending := some ⟨db.notes, db.audit⟩ }, none) := by
  simp [DB.BeginTx, hb]

theorem Create_begin_fault (db : DB) (title content : String) (msg : String)
    (hb : db.fault .begin = some msg) :
    Repository.Create db title content =
      ({ db with log := db.log ++ [.begin] }, (Note.zero, some (.fault msg))) := by
  simp [Repository.Create, DB.BeginTx, hb]

theorem Create_insert_error (db : DB) (title content : String) (e : Err)
    (hb : db.fault .begin = none)
    (h : (db.BeginTx.1.QueryRowScan true (.insertNote title content)).2.2 = some e) :
    (Repository.Create db title content).2 = (Note.zero, some e) ∧
    (Repository.Create db title content).1.notes = db.notes ∧
    (Repository.Create db title content).1.audit = db.audit := by
  have ht := QueryRowScan_inTx_tables db.BeginTx.1 (.insertNote title content)
    ⟨db.notes, db.audit⟩ (by rw [BeginTx_ok db hb])
  have hr := Rollback_tables (db.BeginTx.1.QueryRowScan true (.insertNote title content)).1
  unfold Repository.Create
  rw [BeginTx_ok db hb] at h ht hr ⊢
  simp only at h ht hr ⊢
  unfold Repository.createBody
  generalize DB.QueryRowScan _ true (.insertNote title content) = q at h ht hr
  obtain ⟨dbq, n, err⟩ := q
  simp only at h ht hr
  subst h
  exact ⟨rfl, hr.1.trans ht.1, hr.2.trans ht.2⟩

/-- The outcome of `Create` once the note insert went through: result and tables. -/
theorem Create_after_insert (db : DB) (title content : String)
    (hb : db.fault .begin = none)
    (h : (db.BeginTx.1.QueryRowScan true (.insertNote title content)).2.2 = none) :
    ((Repository.Create db title content).2,
      (Repository.Create db title content).1.notes,
      (Repository.Create db title content).1.audit) =
    match db.fault (.insertAudit (insertedNote db title content).ID "create") with
    | some m => ((Note.zero, some (.fault m)), db.notes, db.audit)
    | none =>
        match db.fault .commit with
        | some m => ((Note.zero, some (.fault m)), db.notes, db.audit)
        | none =>
            ((insertedNote db title content, none),
              db.notes ++ [insertedNote db title content],
              db.audit ++ [⟨(insertedNote db title content).ID, "create"⟩]) := by
  have hq := insert_scan db title content hb h
  unfold Repository.Create
  rw [BeginTx_ok db hb] at hq ⊢
  simp only at hq ⊢
  unfold Repository.createBody
  rw [hq]
  simp only [DB.ExecContext, DB.run]
  cases ha : db.fault (.insertAudit (insertedNote db title content).ID "create") with
  | some m =>
    simp only [DB.Rollback]
    cases db.fault .rollback <;> rfl
  | none =>
    cases db.rowsAffectedFault (.insertAudit (insertedNote db title content).ID "create") with
    | none =>
      simp only [DB.view, evalStmt, DB.store, DB.Commit]
      cases hc : db.fault .commit with
      | some m => simp only [DB.Rollback]
      | none => simp only [DB.Rollback]
    | some am =>
      simp only [DB.view, evalStmt, DB.store, DB.Commit]
      cases hc : db.fault .commit with
      | some m => simp only [DB.Rollback]
      | none => simp only [DB.Rollback]

theorem insert_scan_of_succeeds (db : DB) (title content : String)
    (hb : db.fault .begin = none) (hs : db.insertSucceeds title content) :
    (db.BeginTx.1.QueryRowScan true (.insertNote title content)).2.2 = none := by
  obtain ⟨hf, hit, hsc, hc⟩ := hs
  simp only [DB.BeginTx, hb, DB.QueryRowScan, DB.QueryContext, DB.run, hf, DB.view, evalStmt,
    mkRows]
  cases hi : db.iterFault (.insertNote title content) with
  | none =>
    simp only [List.map_cons, List.map_nil, scanRow]
    have : db.scanFault (insertedNote
        { db with log := db.log ++ [.begin], pending := some ⟨db.notes, db.audit⟩ }
        title content) = none := hsc
    simp only [this, hc, Option.map_none']
  | some km =>
    obtain ⟨k, m⟩ := km
    cases k with
    | zero => exact absurd hi (hit m)
    | succ k =>
      simp only [List.take_succ_cons, List.take_nil, List.map_cons, List.map_nil, scanRow]
      have : db.scanFault (insertedNote
          { db with log := db.log ++ [.begin], pending := some ⟨db.notes, db.audit⟩ }
          title content) = none := hsc
      simp only [this, hc, Option.map_none']

theorem insert_scan_of_fault (db : DB) (title content : String) (msg : String)
    (hb : db.fault .begin = none) (hf : db.fault (.insertNote title content) = some msg) :
    (db.BeginTx.1.QueryRowScan true (.insertNote title content)).2.2 = some (.fault msg) := by
  simp [DB.BeginTx, hb, DB.QueryRowScan, DB.QueryContext, DB.run, hf]

/-- C8: `Repository.Create` is all-or-nothing on the tables. Whenever it returns an
error it returns the zero `Note` and both tables are as before; whenever it returns
no error it returns the inserted note, and exactly that note has been appended to
`notes` and exactly one entry, tagged "create" and referencing its id, to
`notes_audit`. A failure of `BeginTx`, of the note insert, of the audit insert or of
the commit is the error returned, and without failure `Create` succeeds. -/
theorem create_all_or_nothing (db : DB) (title content : String) :
    (∀ e, (Repository.Create db title content).2.2 = some e →
      (Repository.Create db title content).2.1 = Note.zero ∧
      (Repository.Create db title content).1.notes = db.notes ∧
      (Repository.Create db title content).1.audit = db.audit) ∧
    ((Repository.Create db title content).2.2 = none →
      (Repository.Create db title content).2.1 = insertedNote db title content ∧
      (Repository.Create db title content).1.notes =
        db.notes ++ [(Repository.Create db title content).2.1] ∧
      (Repository.Create db title content).1.audit =
        db.audit ++ [⟨(Repository.Create db title content).2.1.ID, "create"⟩]) ∧
    (∀ msg, db.fault .begin = some msg →
      (Repository.Create db title content).2.2 = some (.fault msg)) ∧
    (db.fault .begin = none → ∀ msg, db.fault (.insertNote title content) = some msg →
      (Repository.Create db title content).2.2 = some (.fault msg)) ∧
    (db.fault .begin = none → db.insertSucceeds title content →
      ∀ msg, db.fault (.insertAudit (insertedNote db title content).ID "create") = some msg →
      (Repository.Create db title content).2.2 = some (.fault msg)) ∧
    (db.fault .begin = none → db.insertSucceeds title content →
      db.fault (.insertAudit (insertedNote db title content).ID "create") = none →
      ∀ msg, db.fault .commit = some msg →
      (Repository.Create db title content).2.2 = some (.fault msg)) ∧
    (db.fault .begin = none → db.insertSucceeds title content →
      db.fault (.insertAudit (insertedNote db title content).ID "create") = none →
      db.fault .commit = none →
      (Repository.Create db title content).2.2 = none) := by
  have key : ∀ (hb : db.fault .begin = none)
      (h : (db.BeginTx.1.QueryRowScan true (.insertNote title content)).2.2 = none),
      _ := fun hb h => Create_after_insert db title content hb h
  refine ⟨?_, ?_, ?_, ?_, ?_, ?_, ?_⟩
  · intro e he
    cases hb : db.fault .begin with
    | some m =>
      rw [Create_begin_fault db title content m hb]
      exact ⟨rfl, rfl, rfl⟩
    | none =>
      cases hq : (db.BeginTx.1.QueryRowScan true (.insertNote title content)).2.2 with
      | some e2 =>
        obtain ⟨h1, h2, h3⟩ := Create_insert_error db title content e2 hb hq
        rw [h1]; exact ⟨rfl, h2, h3⟩
      | none =>
        have k := key hb hq
        cases ha : db.fault (.insertAudit (insertedNote db title content).ID "create") with
        | some m =>
          rw [ha] at k
          simp only [Prod.mk.injEq] at k
          obtain ⟨k1, k2, k3⟩ := k
          rw [k1]; exact ⟨rfl, k2, k3⟩
        | none =>
          rw [ha] at k
          cases hc : db.fault .commit with
          | some m =>
            rw [hc] at k
            simp only [Prod.mk.injEq] at k
            obtain ⟨k1, k2, k3⟩ := k
            rw [k1]; exact ⟨rfl, k2, k3⟩
          | none =>
            rw [hc] at k
            simp only [Prod.mk.injEq] at k
            obtain ⟨k1, _, _⟩ := k
            rw [k1] at he
            exact absurd he (by simp)
  · intro hnone
    cases hb : db.fault .begin with
    | some m =>
      rw [Create_begin_fault db title content m hb] at hnone
      exact absurd hnone (by simp)
    | none =>
      cases hq : (db.BeginTx.1.QueryRowScan true (.insertNote title content)).2.2 with
      | some e2 =>
        obtain ⟨h1, _, _⟩ := Create_insert_error db title content e2 hb hq
        rw [h1] at hnone
        exact absurd hnone (by simp)
      | none =>
        have k := key hb hq
        cases ha : db.fault (.insertAudit (insertedNote db title content).ID "create") with
        | some m =>
          rw [ha] at k
          simp only [Prod.mk.injEq] at k
          rw [k.1] at hnone
          exact absurd hnone (by simp)
        | none =>
          rw [ha] at k
          cases hc : db.fault .commit with
          | some m =>
            rw [hc] at k
            simp only [Prod.mk.injEq] at k
            rw [k.1] at hnone
            exact absurd hnone (by simp)
          | none =>
            rw [hc] at k
            simp only [Prod.mk.injEq] at k
            obtain ⟨k1, k2, k3⟩ := k
            rw [k1]
            exact ⟨rfl, k2, k3⟩
  · intro msg hb
    rw [Create_begin_fault db title content msg hb]
  · intro hb msg hf
    rw [(Create_insert_error db title content _ hb
      (insert_scan_of_fault db title content msg hb hf)).1]
  · intro hb hs msg ha
    have k := key hb (insert_scan_of_succeeds db title content hb hs)
    rw [ha] at k
    simp only [Prod.mk.injEq] at k
    rw [k.1]
  · intro hb hs ha msg hc
    have k := key hb (insert_scan_of_succeeds db title content hb hs)
    rw [ha, hc] at k
    simp only [Prod.mk.injEq] at k
    rw [k.1]
  · intro hb hs ha hc
    have k := key hb (insert_scan_of_succeeds db title content hb hs)
    rw [ha, hc] at k
    simp only [Prod.mk.injEq] at k
    rw [k.1]

/-- C8 on the store holding A, B, C: without failure `Create` succeeds and appends
the note and its audit entry; when the note insert fails the tables are as before. -/
theorem create_all_or_nothing_witness :
    (Repository.Create sampleDB "t" "c").2.2 = none ∧
    ((Repository.Create sampleDB "t" "c").2.1 = insertedNote sampleDB "t" "c" ∧
      (Repository.Create sampleDB "t" "c").1.notes =
        sampleDB.notes ++ [(Repository.Create sampleDB "t" "c").2.1] ∧
      (Repository.Create sampleDB "t" "c").1.audit =
        sampleDB.audit ++ [⟨(Repository.Create sampleDB "t" "c").2.1.ID, "create"⟩]) ∧
    (Repository.Create downDB "t" "c").2.2 = some (.fault "down") ∧
    ((Repository.Create downDB "t" "c").2.1 = Note.zero ∧
      (Repository.Create downDB "t" "c").1.notes = downDB.notes ∧
      (Repository.Create downDB "t" "c").1.audit = downDB.audit) :=
  ⟨(create_all_or_nothing sampleDB "t" "c").2.2.2.2.2.2 rfl
      ⟨rfl, fun _ => by simp [sampleDB], rfl, rfl⟩ rfl rfl,
    (create_all_or_nothing sampleDB "t" "c").2.1
      ((create_all_or_nothing sampleDB "t" "c").2.2.2.2.2.2 rfl
        ⟨rfl, fun _ => by simp [sampleDB], rfl, rfl⟩ rfl rfl),
    (create_all_or_nothing downDB "t" "c").2.2.2.1 rfl "down" rfl,
    (create_all_or_nothing downDB "t" "c").1 (.fault "down")
      ((create_all_or_nothing downDB "t" "c").2.2.2.1 rfl "down" rfl)⟩

/-- Evaluation on the store holding A, B, C: a successful `Create`, and a `Create`
whose audit insert fails. -/
theorem create_sample :
    (Repository.Create sampleDB "t" "c").2 = (⟨4, "t", "c", 40⟩, none) ∧
    (Repository.Create sampleDB "t" "c").1.notes = [noteA, noteB, noteC, ⟨4, "t", "c", 40⟩] ∧
    (Repository.Create sampleDB "t" "c").1.audit =
      [⟨1, "create"⟩, ⟨2, "create"⟩, ⟨3, "create"⟩, ⟨4, "create"⟩] ∧
    (Repository.Create sampleDB "t" "c").1.log =
      [.begin, .insertNote "t" "c", .insertAudit 4 "create", .commit] ∧
    (Repository.Create sampleDB "t" "c").1.nextID = 5 ∧
    (Repository.Create
      { sampleDB with fault := fun s => if s = .insertAudit 4 "create" then some "down" else none }
      "t" "c").2 = (Note.zero, some (.fault "down")) ∧
    (Repository.Create
      { sampleDB with fault := fun s => if s = .insertAudit 4 "create" then some "down" else none }
      "t" "c").1.notes = [noteA, noteB, noteC] ∧
    (Repository.Create
      { sampleDB with fault := fun s => if s = .insertAudit 4 "create" then some "down" else none }
      "t" "c").1.log = [.begin, .insertNote "t" "c", .insertAudit 4 "create", .rollback] := by
  decide

/-! ## Properties of the handlers -/

/-- The value that the list handler hands to `writeJSON` when `store.List`
succeeds. -/
theorem list_written_value (lib : Lib) (store : Store) (r : Request) (items : Slice Note)
    (h : store.List (Handlers.listParams lib r) = (items, none)) :
    ∃ (nextAt : Option String) (nextID : Option Int),
      (Handlers.list lib store r).resp = writeJSON StatusOK (.page items nextAt nextID) ∧
      (nextAt.isSome ↔ 0 < Slice.len items) ∧ (nextID.isSome ↔ 0 < Slice.len items) ∧
      ∀ l last, items = some l → l.getLast? = some last →
        nextAt = some (lib.formatTime last.CreatedAt) ∧ nextID = some last.ID := by
  unfold Handlers.list
  simp only [h]
  cases items with
  | none =>
    refine ⟨none, none, ?_, by simp [Slice.len], by simp [Slice.len], ?_⟩
    · simp [Slice.len]
    · intro l last hl; exact absurd hl (by simp)
  | some l =>
    cases hlast : l.getLast? with
    | none =>
      have hnil : l = [] := List.getLast?_eq_none_iff.mp hlast
      subst hnil
      refine ⟨none, none, ?_, by simp [Slice.len], by simp [Slice.len], ?_⟩
      · simp [Slice.len]
      · intro l2 last hl hl2
        have : l2 = [] := by simpa using hl.symm
        subst this
        simp at hl2
    | some last =>
      have hpos : 0 < Slice.len (some l) := by
        cases l with
        | nil => simp at hlast
        | cons a t => simp [Slice.len]
      refine ⟨some (lib.formatTime last.CreatedAt), some last.ID, ?_, by simp [hpos],
        by simp [hpos], ?_⟩
      · rw [if_pos hpos]
        simp [hlast]
      · intro l2 last2 hl hl2
        have : l2 = l := by simpa using hl.symm
        subst this
        rw [hlast] at hl2
        have : last2 = last := by simpa using hl2.symm
        subst this
        exact ⟨rfl, rfl⟩

/-- C9: when `store.List` succeeds, the response of the list handler has status
200, the JSON content type, and a body whose `items` is the page;
`next_cursor_created_at` and `next_cursor_id` are present in the body exactly when
the page is non-empty, and are then the RFC3339Nano text of the creation time and the
id of the last item of the page. -/
theorem list_next_cursor (lib : Lib) (store : Store) (r : Request) (items : Slice Note)
    (h : store.List (Handlers.listParams lib r) = (items, none)) :
    ∃ (nextAt : Option String) (nextID : Option Int),
      (Handlers.list lib store r).resp.status = 200 ∧
      (Handlers.list lib store r).resp.contentType = some "application/json" ∧
      (Handlers.list lib store r).resp.body = .page items nextAt nextID ∧
      (nextAt.isSome ↔ 0 < Slice.len items) ∧ (nextID.isSome ↔ 0 < Slice.len items) ∧
      ∀ l last, items = some l → l.getLast? = some last →
        nextAt = some (lib.formatTime last.CreatedAt) ∧ nextID = some last.ID := by
  obtain ⟨nextAt, nextID, h1, h2, h3, h4⟩ := list_written_value lib store r items h
  refine ⟨nextAt, nextID, ?_, ?_, ?_, h2, h3, h4⟩
  · rw [h1]; rfl
  · rw [h1]; rfl
  · rw [h1]; rfl

/-- C9 for `GET /notes?limit=2` on the repository holding A, B, C: the page is
`[C, B]` and the cursor is that of B. -/
theorem list_next_cursor_witness :
    (Repository.asStore sampleDB).List (Handlers.listParams sampleLib sampleListRequest) =
      (some [noteC, noteB], none) ∧
    (Handlers.list sampleLib (Repository.asStore sampleDB) sampleListRequest).resp =
      ⟨200, some "application/json",
        .page (some [noteC, noteB]) (some "0001-01-01T00:00:00.00000002Z") (some 2)⟩ ∧
    ∃ (nextAt : Option String) (nextID : Option Int),
      (Handlers.list sampleLib (Repository.asStore sampleDB) sampleListRequest).resp.status =
        200 ∧
      (Handlers.list sampleLib (Repository.asStore sampleDB)
        sampleListRequest).resp.contentType = some "application/json" ∧
      (Handlers.list sampleLib (Repository.asStore sampleDB) sampleListRequest).resp.body =
        .page (some [noteC, noteB]) nextAt nextID ∧
      (nextAt.isSome ↔ 0 < Slice.len (some [noteC, noteB])) ∧
      (nextID.isSome ↔ 0 < Slice.len (some [noteC, noteB])) ∧
      ∀ l last, some [noteC, noteB] = some l → l.getLast? = some last →
        nextAt = some (sampleLib.formatTime last.CreatedAt) ∧ nextID = some last.ID :=
  ⟨by decide, by decide,
    list_next_cursor sampleLib (Repository.asStore sampleDB) sampleListRequest
      (some [noteC, noteB]) (by decide)⟩

theorem decodeNote_malformed (body : String) (h : Json.firstValue body = none) :
    Json.decodeNote body = .error (.fault "json: malformed value") := by
  unfold Json.decodeNote
  rw [h]

/-- C10, as far as the code goes: a validation failure never reaches the store. A
create request whose body the decoder rejects or decodes to an empty title or
content, an update request with such a body or with an id that is not a base-10
64-bit integer, and a get or delete request with such an id are answered 400 without
any call of a `Store` method. The decoder of `encoding/json` rejects every body that
does not begin with a well-formed JSON value, so such a create or update request is
answered 400 without any call. -/
theorem validation_never_reaches_store (lib : Lib) (store : Store) (r : Request) :
    (((∃ e, lib.decodeCreate r.body = .error e) ∨
        (∃ req, lib.decodeCreate r.body = .ok req ∧ (req.Title = "" ∨ req.Content = ""))) →
      (Handlers.create lib store r).resp.status = 400 ∧
      (Handlers.create lib store r).calls = []) ∧
    ((parseInt64 r.idParam = none ∨ (∃ e, lib.decodeUpdate r.body = .error e) ∨
        (∃ req, lib.decodeUpdate r.body = .ok req ∧ (req.Title = "" ∨ req.Content = ""))) →
      (Handlers.update lib store r).resp.status = 400 ∧
      (Handlers.update lib store r).calls = []) ∧
    (parseInt64 r.idParam = none →
      (Handlers.get store r).resp.status = 400 ∧
      (Handlers.get store r).calls = []) ∧
    (parseInt64 r.idParam = none →
      (Handlers.delete store r).resp.status = 400 ∧
      (Handlers.delete store r).calls = []) ∧
    (Json.firstValue r.body = none →
      ((Handlers.create (Json.lib lib) store r).resp.status = 400 ∧
        (Handlers.create (Json.lib lib) store r).calls = []) ∧
      ((Handlers.update (Json.lib lib) store r).resp.status = 400 ∧
        (Handlers.update (Json.lib lib) store r).calls = [])) := by
  have hcreate : ∀ (l : Lib), ((∃ e, l.decodeCreate r.body = .error e) ∨
        (∃ req, l.decodeCreate r.body = .ok req ∧ (req.Title = "" ∨ req.Content = ""))) →
      (Handlers.create l store r).resp.status = 400 ∧
      (Handlers.create l store r).calls = [] := by
    intro l h
    unfold Handlers.create
    rcases h with ⟨e, he⟩ | ⟨req, hreq, hempty⟩
    · rw [he]; exact ⟨rfl, rfl⟩
    · simp [hreq, if_pos hempty, writeJSON, StatusBadRequest]
  have hupdate : ∀ (l : Lib), (parseInt64 r.idParam = none ∨
        (∃ e, l.decodeUpdate r.body = .error e) ∨
        (∃ req, l.decodeUpdate r.body = .ok req ∧ (req.Title = "" ∨ req.Content = ""))) →
      (Handlers.update l store r).resp.status = 400 ∧
      (Handlers.update l store r).calls = [] := by
    intro l h
    unfold Handlers.update
    cases hid : parseInt64 r.idParam with
    | none => exact ⟨rfl, rfl⟩
    | some id =>
      rcases h with h | ⟨e, he⟩ | ⟨req, hreq, hempty⟩
      · rw [hid] at h; exact absurd h (by simp)
      · simp [he, writeJSON, StatusBadRequest]
      · simp [hreq, if_pos hempty, writeJSON, StatusBadRequest]
  refine ⟨hcreate lib, hupdate lib, ?_, ?_, ?_⟩
  · intro h
    unfold Handlers.get
    rw [h]; exact ⟨rfl, rfl⟩
  · intro h
    unfold Handlers.delete
    rw [h]; exact ⟨rfl, rfl⟩
  · intro h
    have hd := decodeNote_malformed r.body h
    refine ⟨hcreate (Json.lib lib) (Or.inl ⟨.fault "json: malformed value", ?_⟩),
      hupdate (Json.lib lib) (Or.inr (Or.inl ⟨.fault "json: malformed value", ?_⟩))⟩
    · simp only [Json.lib, hd]
    · simp only [Json.lib, hd]

/-- C10 as stated fails for a body that is malformed after its first JSON value:
the body of a valid create request followed by two closing braces is not a JSON
text, yet the decoder reads the request and ignores the rest, and the handler calls
`Store.Create` and answers 201. -/
theorem create_accepts_trailing_text :
    Json.wellFormed "\x7b\"title\":\"t\",\"content\":\"c\"\x7d\x7d\x7d" = false ∧
    Json.wellFormed "\x7b\"title\":\"t\",\"content\":\"c\"\x7d" = true ∧
    (Handlers.create (Json.lib sampleLib) (Repository.asStore sampleDB)
      ⟨"", "\x7b\"title\":\"t\",\"content\":\"c\"\x7d\x7d\x7d", fun _ => ""⟩).calls =
      [.Create "t" "c"] ∧
    (Handlers.create (Json.lib sampleLib) (Repository.asStore sampleDB)
      ⟨"", "\x7b\"title\":\"t\",\"content\":\"c\"\x7d\x7d\x7d", fun _ => ""⟩).resp =
      ⟨201, some "application/json", .note ⟨4, "t", "c", 40⟩⟩ ∧
    ¬ ((Handlers.create (Json.lib sampleLib) (Repository.asStore sampleDB)
        ⟨"", "\x7b\"title\":\"t\",\"content\":\"c\"\x7d\x7d\x7d", fun _ => ""⟩).resp.status =
        400 ∧
      (Handlers.create (Json.lib sampleLib) (Repository.asStore sampleDB)
        ⟨"", "\x7b\"title\":\"t\",\"content\":\"c\"\x7d\x7d\x7d", fun _ => ""⟩).calls =
        []) := by
  decide

/-- C10 on requests of the handler tests, against the repository holding A, B, C:
a create with an empty title, an update with a truncated body, a get of `abc`, all
with the decoder of `encoding/json`. -/
theorem validation_never_reaches_store_witness :
    Json.firstValue "\x7b" = none ∧
    ((Handlers.create (Json.lib sampleLib) (Repository.asStore sampleDB)
        ⟨"", "\x7b\"title\":\"\",\"content\":\"x\"\x7d", fun _ => ""⟩).resp.status = 400 ∧
      (Handlers.create (Json.lib sampleLib) (Repository.asStore sampleDB)
        ⟨"", "\x7b\"title\":\"\",\"content\":\"x\"\x7d", fun _ => ""⟩).calls = []) ∧
    ((Handlers.update (Json.lib sampleLib) (Repository.asStore sampleDB)
        ⟨"1", "\x7b", fun _ => ""⟩).resp.status = 400 ∧
      (Handlers.update (Json.lib sampleLib) (Repository.asStore sampleDB)
        ⟨"1", "\x7b", fun _ => ""⟩).calls = []) ∧
    ((Handlers.get (Repository.asStore sampleDB) ⟨"abc", "", fun _ => ""⟩).resp.status = 400 ∧
      (Handlers.get (Repository.asStore sampleDB) ⟨"abc", "", fun _ => ""⟩).calls = []) :=
  ⟨rfl,
    (validation_never_reaches_store (Json.lib sampleLib) (Repository.asStore sampleDB)
      ⟨"", "\x7b\"title\":\"\",\"content\":\"x\"\x7d", fun _ => ""⟩).1
      (Or.inr ⟨⟨"", "x"⟩, rfl, Or.inl rfl⟩),
    ((validation_never_reaches_store sampleLib (Repository.asStore sampleDB)
      ⟨"1", "\x7b", fun _ => ""⟩).2.2.2.2 rfl).2,
    (validation_never_reaches_store sampleLib (Repository.asStore sampleDB)
      ⟨"abc", "", fun _ => ""⟩).2.2.1 (by decide)⟩

/-- Evaluation of the decoder of `encoding/json` on note requests: keys match up to
case, the last of two equal keys wins, unknown keys and what follows the first value
are skipped, escapes are resolved, `null` and the empty object decode to the zero
request, and a value of another type, a truncated body and an empty body are
errors. -/
theorem decodeNote_samples :
    Json.decodeNote "\x7b\"Title\":\"a\",\"CONTENT\":\"b\"\x7d" = .ok ("a", "b") ∧
    Json.decodeNote "\x7b\"title\":\"a\",\"title\":\"b\",\"content\":\"c\"\x7d" =
      .ok ("b", "c") ∧
    Json.decodeNote " \x7b \"title\" : \"a\", \"x\": [1, \x7b\"y\": null\x7d, -2.5e3], \"content\":\"c\" \x7d trailing" =
      .ok ("a", "c") ∧
    Json.decodeNote "\x7b\"title\":\"\\u0041\\n\",\"content\":\"\\ud83d\\ude00\"\x7d" =
      .ok ("A\n", "😀") ∧
    Json.decodeNote "null" = .ok ("", "") ∧
    Json.decodeNote "\x7b\x7d" = .ok ("", "") ∧
    Json.decodeNote "\x7b\"title\":null,\"content\":\"c\"\x7d" = .ok ("", "c") ∧
    Json.decodeNote "\x7b\"title\":1,\"content\":\"c\"\x7d" =
      .error (.fault "json: cannot unmarshal value into field of type string") ∧
    Json.decodeNote "[]" = .error (.fault "json: cannot unmarshal value into request") ∧
    Json.decodeNote "\x7b" = .error (.fault "json: malformed value") ∧
    Json.decodeNote "\x7b\"title\":\"a\",\x7d" = .error (.fault "json: malformed value") ∧
    Json.decodeNote "\x7b\"title\":01\x7d" = .error (.fault "json: malformed value") ∧
    Json.decodeNote "" = .error (.fault "json: malformed value") :=
  ⟨rfl, rfl, rfl, rfl, rfl, rfl, rfl, rfl, rfl, rfl, rfl, rfl, rfl⟩

/-- Evaluation of the repository on the store whose results fail to close: a listing
returns its rows together with the error of the closing, and reading a missing note
returns that error. -/
theorem close_failure_sample :
    (Repository.List closeDB ⟨20, none, none, ""⟩).2 =
      (some [noteC, noteB, noteA], some (.fault "close boom")) ∧
    (Repository.Get closeDB 9).2 = (Note.zero, some (.fault "close boom")) ∧
    (Repository.Get closeDB 2).2 = (noteB, some (.fault "close boom")) := by
  decide


/-- Evaluation of the handlers on requests of the handler tests: an empty title, a
truncated body, the ids `abc` and 2^63, and two valid requests. -/
theorem validation_sample :
    Handlers.create sampleLib (Repository.asStore sampleDB)
        ⟨"", "\x7b\"title\":\"\",\"content\":\"x\"\x7d", fun _ => ""⟩ =
      ⟨[], ⟨400, some "application/json", .error "title and content required"⟩⟩ ∧
    Handlers.update sampleLib (Repository.asStore sampleDB) ⟨"1", "\x7b", fun _ => ""⟩ =
      ⟨[], ⟨400, some "application/json", .error "invalid json"⟩⟩ ∧
    Handlers.get (Repository.asStore sampleDB) ⟨"abc", "", fun _ => ""⟩ =
      ⟨[], ⟨400, some "application/json", .error "invalid id"⟩⟩ ∧
    Handlers.delete (Repository.asStore sampleDB) ⟨"9223372036854775808", "", fun _ => ""⟩ =
      ⟨[], ⟨400, some "application/json", .error "invalid id"⟩⟩ ∧
    Handlers.get (Repository.asStore sampleDB) ⟨"2", "", fun _ => ""⟩ =
      ⟨[.Get 2], ⟨200, some "application/json", .note noteB⟩⟩ ∧
    Handlers.create sampleLib (Repository.asStore sampleDB)
        ⟨"", "\x7b\"title\":\"t\",\"content\":\"c\"\x7d", fun _ => ""⟩ =
      ⟨[.Create "t" "c"], ⟨201, some "application/json", .note ⟨4, "t", "c", 40⟩⟩⟩ := by
  decide

/-- The calls of the handlers with an id and what they hand to `writeJSON`, from the
result of the store. -/
theorem written_value_from_store_result (lib : Lib) (store : Store) (r : Request) (id : Int)
    (hid : parseInt64 r.idParam = some id) :
    ((Handlers.get store r).calls = [.Get id] ∧
      ((store.Get id).2 = none →
        (Handlers.get store r).resp = writeJSON 200 (.note (store.Get id).1)) ∧
      ((store.Get id).2 = some .ErrNoRows → (Handlers.get store r).resp.status = 404) ∧
      (∀ e, (store.Get id).2 = some e → e ≠ .ErrNoRows →
        (Handlers.get store r).resp.status = 500)) ∧
    (∀ req, lib.decodeUpdate r.body = .ok req → req.Title ≠ "" → req.Content ≠ "" →
      (Handlers.update lib store r).calls = [.Update id req.Title req.Content] ∧
      ((store.Update id req.Title req.Content).2 = none →
        (Handlers.update lib store r).resp =
          writeJSON 200 (.note (store.Update id req.Title req.Content).1)) ∧
      ((store.Update id req.Title req.Content).2 = some .ErrNoRows →
        (Handlers.update lib store r).resp.status = 404) ∧
      (∀ e, (store.Update id req.Title req.Content).2 = some e → e ≠ .ErrNoRows →
        (Handlers.update lib store r).resp.status = 500)) ∧
    ((Handlers.delete store r).calls = [.Delete id] ∧
      (store.Delete id = none → (Handlers.delete store r).resp = ⟨204, none, .empty⟩) ∧
      (store.Delete id = some .ErrNoRows → (Handlers.delete store r).resp.status = 404) ∧
      (∀ e, store.Delete id = some e → e ≠ .ErrNoRows →
        (Handlers.delete store r).resp.status = 500)) := by
  obtain ⟨sCreate, sGet, sUpdate, sDelete, sList, sBatchGet⟩ := store
  refine ⟨?_, ?_, ?_⟩
  · unfold Handlers.get
    simp only [hid]
    rcases hg : sGet id with ⟨n, err⟩
    cases err with
    | none => simp [StatusOK]
    | some e =>
      by_cases he : e = .ErrNoRows
      · subst he; simp [StatusNotFound, writeJSON]
      · simp [he, StatusInternalServerError, writeJSON]
  · intro req hreq ht hc
    unfold Handlers.update
    simp only [hid, hreq]
    rw [if_neg (by simp [ht, hc])]
    rcases hu : sUpdate id req.Title req.Content with ⟨n, err⟩
    cases err with
    | none => simp [StatusOK]
    | some e =>
      by_cases he : e = .ErrNoRows
      · subst he; simp [StatusNotFound, writeJSON]
      · simp [he, StatusInternalServerError, writeJSON]
  · unfold Handlers.delete
    simp only [hid]
    cases hd : sDelete id with
    | none => simp [StatusNoContent]
    | some e =>
      by_cases he : e = .ErrNoRows
      · subst he; simp [StatusNotFound, writeJSON]
      · simp [he, StatusInternalServerError, writeJSON]

/-- C11: for a request whose id parameter is a valid integer, the handler calls the
store once and its response follows from the store's result alone. `GET`: status 200
and the note as body when `Store.Get` returns no error, status 404 when it returns
`sql.ErrNoRows`, status 500 for every other error. `PUT`, once the body has passed
validation: status 200 and the note as body, 404, 500 in the same way from
`Store.Update`. `DELETE`: status 204 without body, 404, 500 from `Store.Delete`. -/
theorem status_from_store_result (lib : Lib) (store : Store) (r : Request) (id : Int)
    (hid : parseInt64 r.idParam = some id) :
    ((Handlers.get store r).calls = [.Get id] ∧
      ((store.Get id).2 = none →
        (Handlers.get store r).resp.status = 200 ∧
        (Handlers.get store r).resp.contentType = some "application/json" ∧
        (Handlers.get store r).resp.body = .note (store.Get id).1) ∧
      ((store.Get id).2 = some .ErrNoRows → (Handlers.get store r).resp.status = 404) ∧
      (∀ e, (store.Get id).2 = some e → e ≠ .ErrNoRows →
        (Handlers.get store r).resp.status = 500)) ∧
    (∀ req, lib.decodeUpdate r.body = .ok req → req.Title ≠ "" → req.Content ≠ "" →
      (Handlers.update lib store r).calls = [.Update id req.Title req.Content] ∧
      ((store.Update id req.Title req.Content).2 = none →
        (Handlers.update lib store r).resp.status = 200 ∧
        (Handlers.update lib store r).resp.contentType = some "application/json" ∧
        (Handlers.update lib store r).resp.body =
          .note (store.Update id req.Title req.Content).1) ∧
      ((store.Update id req.Title req.Content).2 = some .ErrNoRows →
        (Handlers.update lib store r).resp.status = 404) ∧
      (∀ e, (store.Update id req.Title req.Content).2 = some e → e ≠ .ErrNoRows →
        (Handlers.update lib store r).resp.status = 500)) ∧
    ((Handlers.delete store r).calls = [.Delete id] ∧
      (store.Delete id = none → (Handlers.delete store r).resp = ⟨204, none, .empty⟩) ∧
      (store.Delete id = some .ErrNoRows → (Handlers.delete store r).resp.status = 404) ∧
      (∀ e, store.Delete id = some e → e ≠ .ErrNoRows →
        (Handlers.delete store r).resp.status = 500)) := by
  obtain ⟨⟨g1, g2, g3, g4⟩, hu, hd⟩ := written_value_from_store_result lib store r id hid
  refine ⟨⟨g1, ?_, g3, g4⟩, ?_, hd⟩
  · intro h
    rw [g2 h]
    exact ⟨rfl, rfl, rfl⟩
  · intro req hreq ht hc
    obtain ⟨u1, u2, u3, u4⟩ := hu req hreq ht hc
    refine ⟨u1, ?_, u3, u4⟩
    intro h
    rw [u2 h]
    exact ⟨rfl, rfl, rfl⟩

/-- C11 against the repository holding A, B, C and against the failing store: note 2
is read with 200, updated with 200 and deleted with 204, the missing note 9 gives
404, and a failure of the store gives 500. -/
theorem status_from_store_result_witness :
    parseInt64 "2" = some 2 ∧ parseInt64 "9" = some 9 ∧
    (Handlers.get (Repository.asStore sampleDB) ⟨"2", "", fun _ => ""⟩).resp =
      ⟨200, some "application/json", .note noteB⟩ ∧
    ((Handlers.get (Repository.asStore sampleDB) ⟨"2", "", fun _ => ""⟩).resp.status = 200 ∧
      (Handlers.get (Repository.asStore sampleDB) ⟨"2", "", fun _ => ""⟩).resp.contentType =
        some "application/json" ∧
      (Handlers.get (Repository.asStore sampleDB) ⟨"2", "", fun _ => ""⟩).resp.body =
        .note ((Repository.asStore sampleDB).Get 2).1) ∧
    (Handlers.get (Repository.asStore sampleDB) ⟨"9", "", fun _ => ""⟩).resp.status = 404 ∧
    (Handlers.get (Repository.asStore downDB) ⟨"2", "", fun _ => ""⟩).resp.status = 500 ∧
    (Handlers.update sampleLib (Repository.asStore sampleDB)
      ⟨"2", "\x7b\"title\":\"t\",\"content\":\"c\"\x7d", fun _ => ""⟩).resp =
      ⟨200, some "application/json", .note ⟨2, "t", "c", 20⟩⟩ ∧
    (Handlers.update sampleLib (Repository.asStore sampleDB)
      ⟨"2", "\x7b\"title\":\"t\",\"content\":\"c\"\x7d", fun _ => ""⟩).resp.status =
      200 ∧
    (Handlers.delete (Repository.asStore sampleDB) ⟨"2", "", fun _ => ""⟩).resp =
      ⟨204, none, .empty⟩ ∧
    (Handlers.delete (Repository.asStore sampleDB) ⟨"9", "", fun _ => ""⟩).resp.status = 404 :=
  ⟨by decide, by decide, by decide,
    (status_from_store_result sampleLib (Repository.asStore sampleDB)
      ⟨"2", "", fun _ => ""⟩ 2 (by decide)).1.2.1 (by decide),
    (status_from_store_result sampleLib (Repository.asStore sampleDB)
      ⟨"9", "", fun _ => ""⟩ 9 (by decide)).1.2.2.1 (by decide),
    (status_from_store_result sampleLib (Repository.asStore downDB)
      ⟨"2", "", fun _ => ""⟩ 2 (by decide)).1.2.2.2 (.fault "down") (by decide) (by decide),
    by decide,
    (((status_from_store_result sampleLib (Repository.asStore sampleDB)
      ⟨"2", "\x7b\"title\":\"t\",\"content\":\"c\"\x7d", fun _ => ""⟩ 2 (by decide)).2.1
      ⟨"t", "c"⟩ rfl (by decide) (by decide)).2.1 (by decide)).1,
    (status_from_store_result sampleLib (Repository.asStore sampleDB)
      ⟨"2", "", fun _ => ""⟩ 2 (by decide)).2.2.2.1 (by decide),
    (status_from_store_result sampleLib (Repository.asStore sampleDB)
      ⟨"9", "", fun _ => ""⟩ 9 (by decide)).2.2.2.2.1 (by decide)⟩

theorem parseInt64_empty : parseInt64 "" = none := rfl

/-- C15: the list handler never rejects its query parameters. It calls `Store.List`
exactly once; the parameters it passes carry `q` verbatim, the limit 20 when `limit`
is missing or is not parsed as an integer and the parsed integer itself otherwise
(whatever its value), and a cursor field that is absent when `cursor_created_at` is
missing or not RFC3339Nano, respectively `cursor_id` is missing or not a 64-bit
integer, and the parsed value otherwise. The status is 200 when `Store.List` returns
no error and 500 when it returns one. -/
theorem list_never_rejects (lib : Lib) (store : Store) (r : Request) :
    (Handlers.list lib store r).calls = [.List (Handlers.listParams lib r)] ∧
    (Handlers.listParams lib r).Query = r.query "q" ∧
    ((r.query "limit" = "" ∨ parseInt64 (r.query "limit") = none) →
      (Handlers.listParams lib r).Limit = 20) ∧
    (∀ v, parseInt64 (r.query "limit") = some v → (Handlers.listParams lib r).Limit = v) ∧
    ((r.query "cursor_created_at" = "" ∨
        lib.parseTime (r.query "cursor_created_at") = none) →
      (Handlers.listParams lib r).CursorCreatedAt = none) ∧
    (∀ t, r.query "cursor_created_at" ≠ "" →
      lib.parseTime (r.query "cursor_created_at") = some t →
      (Handlers.listParams lib r).CursorCreatedAt = some t) ∧
    ((r.query "cursor_id" = "" ∨ parseInt64 (r.query "cursor_id") = none) →
      (Handlers.listParams lib r).CursorID = none) ∧
    (∀ v, parseInt64 (r.query "cursor_id") = some v →
      (Handlers.listParams lib r).CursorID = some v) ∧
    ((store.List (Handlers.listParams lib r)).2 = none →
      (Handlers.list lib store r).resp.status = 200) ∧
    (∀ e, (store.List (Handlers.listParams lib r)).2 = some e →
      (Handlers.list lib store r).resp.status = 500) := by
  obtain ⟨sCreate, sGet, sUpdate, sDelete, sList, sBatchGet⟩ := store
  refine ⟨?_, rfl, ?_, ?_, ?_, ?_, ?_, ?_, ?_, ?_⟩
  · unfold Handlers.list
    simp only
    rcases sList (Handlers.listParams lib r) with ⟨items, err⟩
    cases err with
    | some e => rfl
    | none =>
      simp only
      split
      · split <;> rfl
      · rfl
  · intro h
    simp only [Handlers.listParams]
    rcases h with h | h
    · simp [h]
    · simp [h]
  · intro v h
    have hne : r.query "limit" ≠ "" := by
      intro h0; rw [h0, parseInt64_empty] at h; exact absurd h (by simp)
    simp [Handlers.listParams, hne, h]
  · intro h
    simp only [Handlers.listParams]
    rcases h with h | h
    · simp [h]
    · simp [h]
  · intro t hne h
    simp [Handlers.listParams, hne, h]
  · intro h
    simp only [Handlers.listParams]
    rcases h with h | h
    · simp [h]
    · simp [h]
  · intro v h
    have hne : r.query "cursor_id" ≠ "" := by
      intro h0; rw [h0, parseInt64_empty] at h; exact absurd h (by simp)
    simp [Handlers.listParams, hne, h]
  · intro h
    simp only at h
    unfold Handlers.list
    simp only
    rcases hl : sList (Handlers.listParams lib r) with ⟨items, err⟩
    rw [hl] at h
    simp only at h
    subst h
    simp only
    split
    · split <;> rfl
    · rfl
  · intro e h
    simp only at h
    unfold Handlers.list
    simp only
    rcases hl : sList (Handlers.listParams lib r) with ⟨items, err⟩
    rw [hl] at h
    simp only at h
    subst h
    rfl

/-- C15 on `GET /notes?limit=0&cursor_created_at=yesterday&cursor_id=abc`: the limit
0 is passed as it is, both cursor fields are absent, and the answer is 200 from the
repository holding A, B, C and 500 from the failing store. -/
theorem list_never_rejects_witness :
    Handlers.listParams sampleLib sampleOddRequest = ⟨0, none, none, ""⟩ ∧
    (Handlers.listParams sampleLib sampleOddRequest).Limit = 0 ∧
    (Handlers.listParams sampleLib sampleOddRequest).CursorCreatedAt = none ∧
    (Handlers.listParams sampleLib sampleOddRequest).CursorID = none ∧
    (Handlers.list sampleLib (Repository.asStore sampleDB) sampleOddRequest).resp.status = 200 ∧
    (Handlers.list sampleLib (Repository.asStore downDB) sampleOddRequest).resp.status = 500 :=
  ⟨by decide,
    (list_never_rejects sampleLib (Repository.asStore sampleDB) sampleOddRequest).2.2.2.1 0
      (by decide),
    (list_never_rejects sampleLib (Repository.asStore sampleDB) sampleOddRequest).2.2.2.2.1
      (Or.inr (by decide)),
    (list_never_rejects sampleLib (Repository.asStore sampleDB) sampleOddRequest).2.2.2.2.2.2.1
      (Or.inr (by decide)),
    (list_never_rejects sampleLib (Repository.asStore sampleDB)
      sampleOddRequest).2.2.2.2.2.2.2.2.1 (by decide),
    (list_never_rejects sampleLib (Repository.asStore downDB)
      sampleOddRequest).2.2.2.2.2.2.2.2.2 (.fault "down") (by decide)⟩

end Notes

/-! ## Properties of `stringsx.Clip` -/

namespace Utf8

theorem runeWidth_pos (s : GoString) : 1 ≤ runeWidth s := by
  unfold runeWidth
  repeat' split
  all_goals omega

theorem runeCountLoop_le (fuel : Nat) (s : GoString) : runeCountLoop fuel s ≤ s.length := by
  induction fuel generalizing s with
  | zero => simp [runeCountLoop]
  | succ fuel ih =>
    cases s with
    | nil => simp [runeCountLoop]
    | cons c rest =>
      simp only [runeCountLoop]
      have h1 := ih ((c :: rest).drop (runeWidth (c :: rest)))
      have h2 := runeWidth_pos (c :: rest)
      rw [List.length_drop] at h1
      simp only [List.length_cons] at h1 ⊢
      omega

theorem RuneCountInString_le (s : GoString) : RuneCountInString s ≤ s.length :=
  runeCountLoop_le s.length s

end Utf8

namespace Stringsx

/-- C13, as far as the code goes: `Clip(s, max)` is the empty string when
`max ≤ 0`, `s` itself when `len(s) ≤ max`, and otherwise the first `max` bytes of
`s`; the result is always a prefix of `s`, and when `max ≥ 0` it has no more than
`max` bytes and no more than `max` characters. -/
theorem clip_spec (s : GoString) (max : Int) :
    (max ≤ 0 → Clip s max = []) ∧
    (0 < max → (s.length : Int) ≤ max → Clip s max = s) ∧
    (0 < max → max < (s.length : Int) →
      Clip s max = s.take max.toNat ∧ ((Clip s max).length : Int) = max) ∧
    Clip s max <+: s ∧
    (0 ≤ max → ((Clip s max).length : Int) ≤ max ∧
      (Utf8.RuneCountInString (Clip s max) : Int) ≤ max) := by
  have hlen : 0 ≤ max → ((Clip s max).length : Int) ≤ max := by
    intro h0
    unfold Clip
    split
    · simpa using h0
    · split
      · assumption
      · rw [List.length_take]; omega
  refine ⟨?_, ?_, ?_, ?_, ?_⟩
  · intro h; unfold Clip; rw [if_pos h]
  · intro h0 h; unfold Clip; rw [if_neg (by omega), if_pos h]
  · intro h0 h
    unfold Clip
    rw [if_neg (by omega), if_neg (by omega)]
    refine ⟨rfl, ?_⟩
    rw [List.length_take]; omega
  · unfold Clip
    split
    · exact List.nil_prefix
    · split
      · exact List.prefix_rfl
      · exact List.take_prefix _ _
  · intro h0
    refine ⟨hlen h0, ?_⟩
    have h1 := Utf8.RuneCountInString_le (Clip s max)
    have h2 := hlen h0
    omega

/-- C13 at "hello", clipped to 3 bytes, and at a text whose second character takes
two bytes, clipped inside that character. -/
theorem clip_spec_witness :
    Clip (GoString.ofString "hello") 3 = GoString.ofString "hel" ∧
    Clip (GoString.ofString "hello") 5 = GoString.ofString "hello" ∧
    Clip (GoString.ofString "hello") 0 = [] ∧
    Clip (GoString.ofString "héllo") 2 = [104, 195] ∧
    ((Clip (GoString.ofString "héllo") 2).length : Int) ≤ 2 ∧
    (Utf8.RuneCountInString (Clip (GoString.ofString "héllo") 2) : Int) ≤ 2 :=
  ⟨by decide, by decide, by decide, by decide,
    ((clip_spec (GoString.ofString "héllo") 2).2.2.2.2 (by decide)).1,
    ((clip_spec (GoString.ofString "héllo") 2).2.2.2.2 (by decide)).2⟩

/-- C13 as stated fails for a negative `max`: `Clip("hello", -1)` is the empty
string, whose 0 characters are more than -1. -/
theorem clip_negative_max :
    Clip (GoString.ofString "hello") (-1) = [] ∧
    ¬ (((Clip (GoString.ofString "hello") (-1)).length : Int) ≤ -1) ∧
    ¬ ((Utf8.RuneCountInString (Clip (GoString.ofString "hello") (-1)) : Int) ≤ -1) := by
  decide

end Stringsx

/-! ## Properties of the service -/

namespace Service

theorem IndexByte_ge (s : GoString) (c : UInt8) : -1 ≤ IndexByte s c := by
  induction s with
  | nil => simp [IndexByte]
  | cons b rest ih =>
    unfold IndexByte
    split
    · omega
    · split <;> omega

theorem IndexByte_neg_iff (s : GoString) (c : UInt8) : IndexByte s c < 0 ↔ c ∉ s := by
  induction s with
  | nil => simp [IndexByte]
  | cons b rest ih =>
    unfold IndexByte
    by_cases hb : b = c
    · simp [hb]
    · rw [if_neg hb]
      have hcb : ¬ c = b := fun h => hb h.symm
      by_cases hr : IndexByte rest c < 0
      · rw [if_pos hr]
        simp [hcb, ih.mp hr]
      · rw [if_neg hr]
        have : c ∈ rest := by
          by_contra hc; exact hr (ih.mpr hc)
        simp only [List.mem_cons, this, or_true, not_true_eq_false, iff_false]
        omega

theorem IndexByte_zero_iff (s : GoString) (c : UInt8) :
    IndexByte s c = 0 ↔ s.head? = some c := by
  cases s with
  | nil => simp [IndexByte]
  | cons b rest =>
    unfold IndexByte
    by_cases hb : b = c
    · simp [hb]
    · rw [if_neg hb]
      have := IndexByte_ge rest c
      simp only [List.head?_cons, Option.some.injEq, hb, iff_false]
      split <;> omega

theorem IndexByte_last_iff (s : GoString) (c : UInt8) (hs : s ≠ []) :
    IndexByte s c = (s.length : Int) - 1 ↔ (s.getLast? = some c ∧ c ∉ s.dropLast) := by
  induction s with
  | nil => exact absurd rfl hs
  | cons b rest ih =>
    cases rest with
    | nil =>
      unfold IndexByte
      by_cases hb : b = c
      · simp [hb]
      · simp [hb, IndexByte]
    | cons b2 t =>
      have ih2 := ih (List.cons_ne_nil b2 t)
      have hge := IndexByte_ge (b2 :: t) c
      rw [IndexByte]
      by_cases hb : b = c
      · subst hb
        simp only [if_true, List.length_cons, List.dropLast_cons₂, List.mem_cons, true_or,
          not_true_eq_false, and_false, iff_false]
        push_cast
        omega
      · have hcb : ¬ c = b := fun h => hb h.symm
        rw [if_neg hb]
        have hlast : (b :: b2 :: t).getLast? = (b2 :: t).getLast? := by
          simp [List.getLast?_cons_cons]
        have hdrop : (b :: b2 :: t).dropLast = b :: (b2 :: t).dropLast := by
          simp
        rw [hlast, hdrop]
        simp only [List.mem_cons, not_or, hcb, not_false_eq_true, true_and]
        rw [← ih2]
        simp only [List.length_cons]
        push_cast
        split <;> omega

/-- The validation of `isEmailLike` rejects exactly the emails that are shorter than
3 bytes, contain no `'@'`, or have their first `'@'` at the first or at the last
position. -/
theorem isEmailLike_false_iff (s : GoString) : isEmailLike s = false ↔ invalidEmail s := by
  unfold isEmailLike invalidEmail
  by_cases hlen : s.length < 3
  · simp [hlen]
  · have hs : s ≠ [] := by
      intro h; rw [h] at hlen; simp at hlen
    have hge := IndexByte_ge s atSign
    have hneg := IndexByte_neg_iff s atSign
    have hzero := IndexByte_zero_iff s atSign
    have hlast := IndexByte_last_iff s atSign hs
    simp only [hlen, if_false, false_or]
    rw [← hneg, ← hzero, ← hlast]
    constructor
    · intro h
      by_cases hc : IndexByte s atSign ≤ 0 ∨ IndexByte s atSign = (s.length : Int) - 1
      · rcases hc with hc | hc
        · by_cases h0 : IndexByte s atSign < 0
          · exact Or.inl h0
          · exact Or.inr (Or.inl (by omega))
        · exact Or.inr (Or.inr hc)
      · simp [hc] at h
    · intro h
      have hc : IndexByte s atSign ≤ 0 ∨ IndexByte s atSign = (s.length : Int) - 1 := by
        rcases h with h | h | h
        · exact Or.inl (by omega)
        · exact Or.inl (by omega)
        · exact Or.inr h
      simp [hc]

/-- C12: for an email whose trimmed form passes the validation, `Service.Register`
first looks the trimmed email up. It calls `repo.Create`, with the trimmed email,
exactly when the lookup fails with `ErrNotFound` (as `errors.Is` decides), and then
returns the result of `Create` unchanged; when the lookup succeeds it returns
`ErrAlreadyExists`, and when the lookup fails with any other error it returns that
error unchanged, in both cases without calling `Create`. -/
theorem register_outcome (TrimSpace : GoString → GoString) (repo : UserRepo)
    (email : GoString) (hv : isEmailLike (TrimSpace email) = true) :
    (errorsIs (repo.ByEmail (TrimSpace email)).2 .ErrNotFound = true →
      (Register TrimSpace repo email).calls =
        [.ByEmail (TrimSpace email), .Create (TrimSpace email)] ∧
      (Register TrimSpace repo email).ret = repo.Create (TrimSpace email)) ∧
    ((repo.ByEmail (TrimSpace email)).2 = none →
      (Register TrimSpace repo email).calls = [.ByEmail (TrimSpace email)] ∧
      (Register TrimSpace repo email).ret = (User.zero, some .ErrAlreadyExists)) ∧
    (∀ e, (repo.ByEmail (TrimSpace email)).2 = some e →
      errorsIs (some e) .ErrNotFound = false →
      (Register TrimSpace repo email).calls = [.ByEmail (TrimSpace email)] ∧
      (Register TrimSpace repo email).ret = (User.zero, some e)) ∧
    ((∃ x, RepoCall.Create x ∈ (Register TrimSpace repo email).calls) ↔
      errorsIs (repo.ByEmail (TrimSpace email)).2 .ErrNotFound = true) ∧
    (∀ x, RepoCall.Create x ∈ (Register TrimSpace repo email).calls → x = TrimSpace email) := by
  obtain ⟨rByEmail, rCreate⟩ := repo
  simp only [Register, hv, Bool.not_true, Bool.false_eq_true, if_false]
  rcases hb : rByEmail (TrimSpace email) with ⟨u, err⟩
  cases err with
  | none => simp [errorsIs]
  | some e =>
    by_cases he : errorsIs (some e) .ErrNotFound = true
    · simp [he]
    · have he2 : errorsIs (some e) .ErrNotFound = false := by simpa using he
      simp [he2]

/-- C12 on the repositories of the service tests, for the email " x@y ": creation
after `ErrNotFound`, `ErrAlreadyExists` for a known email, and the error "boom" of
the lookup. -/
theorem register_outcome_witness :
    isEmailLike (sampleTrimSpace (GoString.ofString " x@y ")) = true ∧
    sampleTrimSpace (GoString.ofString " x@y ") = GoString.ofString "x@y" ∧
    ((Register sampleTrimSpace emptyRepo (GoString.ofString " x@y ")).calls =
        [.ByEmail (sampleTrimSpace (GoString.ofString " x@y ")),
          .Create (sampleTrimSpace (GoString.ofString " x@y "))] ∧
      (Register sampleTrimSpace emptyRepo (GoString.ofString " x@y ")).ret =
        emptyRepo.Create (sampleTrimSpace (GoString.ofString " x@y "))) ∧
    (Register sampleTrimSpace emptyRepo (GoString.ofString " x@y ")).ret =
      (⟨100, GoString.ofString "x@y"⟩, none) ∧
    ((Register sampleTrimSpace fullRepo (GoString.ofString " x@y ")).calls =
        [.ByEmail (sampleTrimSpace (GoString.ofString " x@y "))] ∧
      (Register sampleTrimSpace fullRepo (GoString.ofString " x@y ")).ret =
        (User.zero, some .ErrAlreadyExists)) ∧
    ((Register sampleTrimSpace boomRepo (GoString.ofString " x@y ")).calls =
        [.ByEmail (sampleTrimSpace (GoString.ofString " x@y "))] ∧
      (Register sampleTrimSpace boomRepo (GoString.ofString " x@y ")).ret =
        (User.zero, some (.other "boom"))) :=
  ⟨by decide, by decide,
    (register_outcome sampleTrimSpace emptyRepo (GoString.ofString " x@y ") (by decide)).1
      (by decide),
    by decide,
    (register_outcome sampleTrimSpace fullRepo (GoString.ofString " x@y ") (by decide)).2.1
      (by decide),
    (register_outcome sampleTrimSpace boomRepo (GoString.ofString " x@y ")
      (by decide)).2.2.1 (.other "boom") (by decide) (by decide)⟩

/-- C14: `Service.FindIDByEmail` and `Service.Register` return `ErrInvalidEmail`
without any call of the repository exactly when the trimmed email is shorter than 3
bytes, or contains no `'@'`, or has its first `'@'` at the first or at the last
position (and then with id 0, respectively the zero `User`). Otherwise
`FindIDByEmail` calls `repo.ByEmail` once, with the trimmed email, and returns the id
of the user found, or id 0 with the error of the repository unchanged. -/
theorem validation_before_repository (TrimSpace : GoString → GoString) (repo : UserRepo)
    (email : GoString) :
    (((FindIDByEmail TrimSpace repo email).ret.2 = some .ErrInvalidEmail ∧
        (FindIDByEmail TrimSpace repo email).calls = []) ↔ invalidEmail (TrimSpace email)) ∧
    (((Register TrimSpace repo email).ret.2 = some .ErrInvalidEmail ∧
        (Register TrimSpace repo email).calls = []) ↔ invalidEmail (TrimSpace email)) ∧
    (invalidEmail (TrimSpace email) →
      (FindIDByEmail TrimSpace repo email).ret = (0, some .ErrInvalidEmail) ∧
      (Register TrimSpace repo email).ret = (User.zero, some .ErrInvalidEmail)) ∧
    (¬ invalidEmail (TrimSpace email) →
      (FindIDByEmail TrimSpace repo email).calls = [.ByEmail (TrimSpace email)] ∧
      (∀ u, repo.ByEmail (TrimSpace email) = (u, none) →
        (FindIDByEmail TrimSpace repo email).ret = (u.ID, none)) ∧
      (∀ u e, repo.ByEmail (TrimSpace email) = (u, some e) →
        (FindIDByEmail TrimSpace repo email).ret = (0, some e))) := by
  obtain ⟨rByEmail, rCreate⟩ := repo
  rw [← isEmailLike_false_iff]
  cases hv : isEmailLike (TrimSpace email) with
  | false =>
    simp [FindIDByEmail, Register, hv]
  | true =>
    simp only [FindIDByEmail, Register, hv, Bool.not_true, Bool.false_eq_true, if_false]
    rcases hb : rByEmail (TrimSpace email) with ⟨u, err⟩
    cases err with
    | none => simp
    | some e =>
      by_cases he : errorsIs (some e) .ErrNotFound = true
      · simp [he]
      · have he2 : errorsIs (some e) .ErrNotFound = false := by simpa using he
        simp [he2]

/-- C14 on the emails of the service tests: " " and "bad" are rejected without a
call of the repository, " a@b " is looked up as "a@b". -/
theorem validation_before_repository_witness :
    invalidEmail (sampleTrimSpace (GoString.ofString " ")) ∧
    invalidEmail (sampleTrimSpace (GoString.ofString "bad")) ∧
    ¬ invalidEmail (sampleTrimSpace (GoString.ofString " a@b ")) ∧
    ((FindIDByEmail sampleTrimSpace fullRepo (GoString.ofString " ")).ret =
        (0, some .ErrInvalidEmail) ∧
      (Register sampleTrimSpace fullRepo (GoString.ofString " ")).ret =
        (User.zero, some .ErrInvalidEmail)) ∧
    (Register sampleTrimSpace emptyRepo (GoString.ofString "bad")).calls = [] ∧
    (FindIDByEmail sampleTrimSpace fullRepo (GoString.ofString " a@b ")).calls =
      [.ByEmail (sampleTrimSpace (GoString.ofString " a@b "))] ∧
    (FindIDByEmail sampleTrimSpace fullRepo (GoString.ofString " a@b ")).ret = (7, none) ∧
    (FindIDByEmail sampleTrimSpace boomRepo (GoString.ofString " a@b ")).ret =
      (0, some (.other "boom")) :=
  ⟨by decide, by decide, by decide,
    (validation_before_repository sampleTrimSpace fullRepo (GoString.ofString " ")).2.2.1
      (by decide),
    ((validation_before_repository sampleTrimSpace emptyRepo (GoString.ofString "bad")).2.1.mpr
      (by decide)).2,
    ((validation_before_repository sampleTrimSpace fullRepo
      (GoString.ofString " a@b ")).2.2.2 (by decide)).1,
    ((validation_before_repository sampleTrimSpace fullRepo
      (GoString.ofString " a@b ")).2.2.2 (by decide)).2.1 ⟨7, GoString.ofString "a@b"⟩
      (by decide),
    ((validation_before_repository sampleTrimSpace boomRepo
      (GoString.ofString " a@b ")).2.2.2 (by decide)).2.2 User.zero (.other "boom")
      (by decide)⟩

end Service
